import Mathlib

/-!
Philmar Resort: booking ledger, access control and dashboard.

A shallow embedding of `models/Booking.js`, `models/User.js`, `routes/userRoutes.js`,
`routes/adminRoutes.js` and the signup and login routes of `app.js`.

Modelling conventions.

* The document store is a record of three collections (`World`).  Every store primitive
  also appends the access it performs to `World.trace`, so that "this handler touched
  nothing" is the statement that the whole `World` is unchanged.
* A `Date` is its millisecond timestamp (an `Int`).  `setHours(0, 0, 0, 0)` is local
  midnight for a fixed offset `Env.tzOffset` between local time and UTC.
* A field that can be `undefined` in a document or in a request body is an `Option`.
  Identifiers are well-formed ObjectIds (`Nat`); numbers are integers.
* `Math.ceil(diffMs / 86400000)` is computed over the integers (exact arithmetic).
* Mongoose runs schema validation as the first `pre("save")` step of every `save()`, on
  new and on loaded documents alike, and the schema hooks run after it in the order in
  which they are declared.  A failed validation rejects the `save()` promise, which the
  route handlers catch.
-/

namespace Philmar

/-- An ObjectId of the document store. -/
abbrev ObjectId := Nat

/-- The constant `1000 * 60 * 60 * 24` of the `nights` virtual: milliseconds per day. -/
def msPerDay : Int := 1000 * 60 * 60 * 24

/-- The clock of one request: the value of `new Date()` and the local time zone offset. -/
structure Env where
  now : Int
  tzOffset : Int
deriving DecidableEq, Repr

/-- A document of `models/User.js`. -/
structure User where
  id : ObjectId
  fullname : String
  username : Option String
  email : String
  password : String
  phone : Option String
  profileImage : String
  role : String
  createdAt : Int
deriving DecidableEq, Repr

/-- A document of `models/Booking.js` (`bookingSchema`). -/
structure Booking where
  id : ObjectId
  userId : Option ObjectId
  name : String
  room : Option String
  pricePerNight : Int
  totalPrice : Int
  salesCategory : String
  checkin : Option Int
  checkout : Option Int
  guests : Option Int
  contact : Option String
  specialRequests : Option String
  status : Option String
  createdAt : Int
deriving DecidableEq, Repr

/-- Modelled from the spec: `models/Notification.js` is not among the sources; a
notification has a target user id, a message text, a type tag, a creation timestamp and
a read flag. -/
structure Notification where
  id : ObjectId
  userId : Option ObjectId
  message : String
  type : String
  createdAt : Int
  read : Bool
deriving DecidableEq, Repr

/-- One access to the document store. -/
inductive Access where
  | readUsers
  | writeUsers
  | readBookings
  | writeBookings
  | readNotifications
  | writeNotifications
deriving DecidableEq, Repr

/-- The persistent state: the three collections, the next fresh ObjectId, and the log of
store accesses performed so far (most recent first). -/
structure World where
  users : List User
  bookings : List Booking
  notifications : List Notification
  nextId : ObjectId
  trace : List Access
deriving DecidableEq, Repr

/-- Record one store access. -/
def World.log (w : World) (a : Access) : World :=
  { w with trace := a :: w.trace }

/-! ## models/Booking.js -/

/-- The `enum` of `bookingSchema.room`. -/
def roomEnum : List String := ["aircon", "bahaykubo", "cottage", "open", "tent"]

/-- The `enum` of `bookingSchema.status`. -/
def statusEnum : List String := ["pending", "accepted", "declined"]

/-- The table `roomRates` of the price hook; `none` is a missing key. -/
def roomRates (room : String) : Option Int :=
  if room = "aircon" then some 3500
  else if room = "bahaykubo" then some 1500
  else if room = "cottage" then some 1200
  else if room = "open" then some 1000
  else if room = "tent" then some 500
  else none

/-- The call `d.setHours(0, 0, 0, 0)`: local midnight of the day of `t`. -/
def setHoursZero (tzOffset t : Int) : Int :=
  t - (t + tzOffset) % msPerDay

/-- The `validator` of `bookingSchema.checkin`. -/
def checkinValidator (env : Env) (value : Int) : Bool :=
  let today := setHoursZero env.tzOffset env.now
  let checkinDate := setHoursZero env.tzOffset value
  decide (checkinDate ≥ today)

/-- The `validator` of `bookingSchema.checkout`. -/
def checkoutValidator (env : Env) (doc : Booking) (value : Int) : Bool :=
  match doc.checkin with
  | none => false
  | some ci =>
    let checkinDate := setHoursZero env.tzOffset ci
    let checkoutDate := setHoursZero env.tzOffset value
    decide (checkoutDate > checkinDate)

/-- Validation of the path `userId`: required. -/
def validUserId (doc : Booking) : Bool := doc.userId.isSome

/-- Validation of the path `room`: required, and a member of the enum. -/
def validRoom (doc : Booking) : Bool :=
  match doc.room with
  | none => false
  | some r => decide (r ≠ "") && decide (r ∈ roomEnum)

/-- Validation of the path `checkin`: required, then the custom validator. -/
def validCheckin (env : Env) (doc : Booking) : Bool :=
  match doc.checkin with
  | none => false
  | some v => checkinValidator env v

/-- Validation of the path `checkout`: required, then the custom validator. -/
def validCheckout (env : Env) (doc : Booking) : Bool :=
  match doc.checkout with
  | none => false
  | some v => checkoutValidator env doc v

/-- Validation of the path `guests`: required, `min` 1, `max` 20. -/
def validGuests (doc : Booking) : Bool :=
  match doc.guests with
  | none => false
  | some g => decide (1 ≤ g) && decide (g ≤ 20)

/-- Validation of the path `status`: a member of the enum when defined. -/
def validStatus (doc : Booking) : Bool :=
  match doc.status with
  | none => true
  | some s => decide (s ∈ statusEnum)

/-- Schema validation of a booking document, as run before every save. -/
def validate (env : Env) (doc : Booking) : Bool :=
  validUserId doc && validRoom doc && validCheckin env doc && validCheckout env doc
    && validGuests doc && validStatus doc

/-- The virtual `nights`: `Math.ceil(diffMs / (1000 * 60 * 60 * 24))`, or 0 when a date
is missing. -/
def nights (doc : Booking) : Int :=
  match doc.checkin, doc.checkout with
  | some ci, some co =>
    let diffMs := co - ci
    Int.neg ((-diffMs) / msPerDay)
  | _, _ => 0

/-- First `pre("save")` hook: price per night from the rate table, total price. -/
def preSavePrice (doc : Booking) : Booking :=
  let pricePerNight := (doc.room.bind roomRates).getD 0
  { doc with pricePerNight := pricePerNight, totalPrice := pricePerNight * nights doc }

/-- Second `pre("save")` hook: default status for legacy documents. -/
def preSaveStatus (doc : Booking) : Booking :=
  match doc.status with
  | none => { doc with status := some "pending" }
  | some s => if s = "" then { doc with status := some "pending" } else doc

/-- The query `User.findById(id)`. -/
def User.findById (w : World) (id : ObjectId) : Option User × World :=
  (w.users.find? (fun u => u.id == id), w.log Access.readUsers)

/-- Third `pre("save")` hook: fill a blank guest name from the owning user. -/
def preSaveName (w : World) (doc : Booking) : Booking × World :=
  match doc.userId with
  | none => (doc, w)
  | some uid =>
    if doc.name = "" then
      let r := User.findById w uid
      match r.1 with
      | some user =>
        if user.fullname ≠ "" then ({ doc with name := user.fullname }, r.2) else (doc, r.2)
      | none => (doc, r.2)
    else (doc, w)

/-- The write `updateOne` by `_id`: replace the first document with the id of `doc`. -/
def updateOne (doc : Booking) : List Booking → List Booking
  | [] => []
  | b :: bs => if b.id == doc.id then doc :: bs else b :: updateOne doc bs

/-- The method `save()` of a booking document: validation, the three hooks in order,
then the write (an insert for a new document, an update by id for a loaded one).
`Except.error` is a rejected promise; validation is the only modelled cause, and it
happens before any store access. -/
def Booking.save (env : Env) (w : World) (doc : Booking) (isNew : Bool) :
    Except String (Booking × World) :=
  if validate env doc then
    let d1 := preSavePrice doc
    let d2 := preSaveStatus d1
    let r := preSaveName w d2
    let d3 := r.1
    let w1 := r.2.log Access.writeBookings
    if isNew then
      let d4 := { d3 with createdAt := env.now }
      Except.ok (d4, { w1 with bookings := w1.bookings ++ [d4], nextId := w1.nextId + 1 })
    else
      Except.ok (d3, { w1 with bookings := updateOne d3 w1.bookings })
  else
    Except.error "Booking validation failed"

/-- The constructor call `new Booking(fields)` with the schema defaults: blank name, zero
prices, sales category "accommodation", status "pending", and a fresh `_id`. -/
def Booking.new (w : World) (userId : Option ObjectId) (room : Option String)
    (checkin checkout guests : Option Int) : Booking :=
  { id := w.nextId, userId := userId, name := "", room := room, pricePerNight := 0,
    totalPrice := 0, salesCategory := "accommodation", checkin := checkin,
    checkout := checkout, guests := guests, contact := none, specialRequests := none,
    status := some "pending", createdAt := 0 }

/-- The query `Booking.findById(id)`. -/
def Booking.findById (w : World) (id : ObjectId) : Option Booking × World :=
  (w.bookings.find? (fun b => b.id == id), w.log Access.readBookings)

/-- Removal of the first document with the given id. -/
def deleteOne (id : ObjectId) : List Booking → List Booking
  | [] => []
  | b :: bs => if b.id == id then bs else b :: deleteOne id bs

/-- The call `Booking.findByIdAndDelete(id)`. -/
def Booking.findByIdAndDelete (w : World) (id : ObjectId) : World :=
  { w with bookings := deleteOne id w.bookings, trace := Access.writeBookings :: w.trace }

/-- The sort `.sort` by `createdAt` descending on bookings: newest first. -/
def sortBookings (bs : List Booking) : List Booking :=
  bs.insertionSort (fun a b => a.createdAt ≥ b.createdAt)

/-- The sort `.sort` by `createdAt` descending on notifications: newest first. -/
def sortNotifications (ns : List Notification) : List Notification :=
  ns.insertionSort (fun a b => a.createdAt ≥ b.createdAt)

/-- The query `Booking.find` by `userId`, sorted. -/
def Booking.find (w : World) (userId : ObjectId) : List Booking × World :=
  (sortBookings (w.bookings.filter (fun b => b.userId == some userId)),
    w.log Access.readBookings)

/-- The query `Booking.find().sort(...)`. -/
def Booking.findAll (w : World) : List Booking × World :=
  (sortBookings w.bookings, w.log Access.readBookings)

/-- The query `Booking.countDocuments(filter)`; `none` is the empty filter, `some s` is
the filter on `status`. -/
def Booking.countDocuments (w : World) (status : Option String) : Nat × World :=
  match status with
  | none => (w.bookings.length, w.log Access.readBookings)
  | some s => ((w.bookings.filter (fun b => b.status == some s)).length,
      w.log Access.readBookings)

/-- The pipeline `Booking.aggregate([$match?, $group with $sum])`: no group for an empty
input, otherwise the single group with the sum of the field. -/
def Booking.aggregate (w : World) (status : Option String) (field : Booking → Int) :
    List Int × World :=
  let input := match status with
    | none => w.bookings
    | some s => w.bookings.filter (fun b => b.status == some s)
  (if input.isEmpty then [] else [(input.map field).sum], w.log Access.readBookings)

/-- The query `User.find().sort(...)`. -/
def User.find (w : World) : List User × World :=
  (w.users.insertionSort (fun a b => a.createdAt ≥ b.createdAt), w.log Access.readUsers)

/-- The query `Notification.find` by `userId`, sorted. -/
def Notification.find (w : World) (userId : ObjectId) : List Notification × World :=
  (sortNotifications (w.notifications.filter (fun n => n.userId == some userId)),
    w.log Access.readNotifications)

/-- The call `Notification.create` with `userId`, `message` and `type`: an append to the outbox. -/
def Notification.create (env : Env) (w : World) (userId : Option ObjectId)
    (message type : String) : World :=
  let n : Notification :=
    { id := w.nextId, userId := userId, message := message, type := type,
      createdAt := env.now, read := false }
  { w with notifications := w.notifications ++ [n], nextId := w.nextId + 1,
           trace := Access.writeNotifications :: w.trace }

/-- Interpolation of a possibly undefined string in a template literal. -/
def interp (s : Option String) : String := s.getD "undefined"

/-! ## Sessions, requests and responses -/

/-- The projection of a user kept in `req.session.user`. -/
structure SessionUser where
  id : ObjectId
  fullname : String
  email : String
  username : String
deriving DecidableEq, Repr

/-- A flash message `req.session.message`. -/
structure Flash where
  type : String
  text : String
deriving DecidableEq, Repr

/-- The server-side session of one browser: the user scope, the admin scope (the admin
username), and the flash message. -/
structure Session where
  user : Option SessionUser
  admin : Option String
  message : Option Flash
deriving DecidableEq, Repr

/-- The session after `req.session.destroy()`. -/
def Session.destroyed : Session := { user := none, admin := none, message := none }

/-- The counters handed to the `admin` view by the dashboard. -/
structure Dashboard where
  admin : Option String
  bookings : List Booking
  totalBookings : Nat
  acceptedCount : Nat
  declinedCount : Nat
  pendingCount : Nat
  totalGuests : Int
  totalRevenue : Int
  message : Option Flash
deriving DecidableEq, Repr

/-- The locals handed to a rendered view. -/
inductive Locals where
  | error (message : String)
  | profile (title : String) (user : User) (bookings : List Booking)
      (notifications : List Notification)
  | adminlog (error : Option String)
  | admin (d : Dashboard)
  | analytics (admin : Option String) (totalBookings : Nat) (totalRevenue totalGuests : Int)
  | history (admin : Option String) (bookings : List Booking)
  | users (admin : Option String) (users : List User)
  | settings (admin : Option String)
deriving DecidableEq, Repr

/-- What a handler sends back. -/
inductive Response where
  | redirect (url : String)
  | send (status : Nat) (text : String)
  | render (status : Nat) (view : String) (locals : Locals)
  | jsonMessage (status : Nat) (success : Bool) (message : String)
  | jsonUpdates (bookings : List Booking) (notifications : List Notification)
deriving DecidableEq, Repr

/-- The outcome of handling one request. -/
structure Result where
  response : Response
  session : Session
  world : World
deriving DecidableEq, Repr

/-- The body of `POST /booking/submit`, after body parsing. -/
structure SubmitBody where
  userId : Option ObjectId
  room : Option String
  checkin : Option Int
  checkout : Option Int
  guests : Option Int
deriving DecidableEq, Repr

/-- JavaScript `!s` for a possibly undefined string. -/
def falsyStr (s : Option String) : Bool :=
  match s with
  | none => true
  | some v => decide (v = "")

/-- JavaScript `!n` for a possibly undefined number. -/
def falsyNum (n : Option Int) : Bool :=
  match n with
  | none => true
  | some v => decide (v = 0)

/-! ## routes/userRoutes.js -/

/-- The handler `GET /profile/:id`. -/
def getProfile (w : World) (s : Session) (userId : ObjectId) : Result :=
  let r1 := User.findById w userId
  let r2 := Booking.find r1.2 userId
  let r3 := Notification.find r2.2 userId
  match r1.1 with
  | none => ⟨Response.render 404 "error" (Locals.error "User not found."), s, r3.2⟩
  | some user =>
    ⟨Response.render 200 "profile"
      (Locals.profile (user.fullname ++ "\x27s Profile") user r2.1 r3.1), s, r3.2⟩

/-- The test `!userId || !room || !checkin || !checkout || !guests` of the submit
handler. -/
def missingDetails (body : SubmitBody) : Bool :=
  body.userId.isNone || falsyStr body.room || body.checkin.isNone
    || body.checkout.isNone || falsyNum body.guests

/-- The handler `POST /booking/submit` of the user router. -/
def postBookingSubmit (env : Env) (w : World) (s : Session) (body : SubmitBody) : Result :=
  if missingDetails body then
    ⟨Response.send 400 "Missing booking details.", s, w⟩
  else
    let newBooking := Booking.new w body.userId body.room body.checkin body.checkout body.guests
    match Booking.save env w newBooking true with
    | Except.ok r =>
      let w2 := Notification.create env r.2 body.userId
        ("Your booking request for " ++ interp body.room
          ++ " has been submitted and is pending approval.") "booking"
      ⟨Response.redirect ("/profile/" ++ toString (body.userId.getD 0)), s, w2⟩
    | Except.error _ =>
      ⟨Response.render 500 "error" (Locals.error "Booking submission failed."), s, w⟩

/-- The handler `GET /userUpdates/:userId`. -/
def getUserUpdates (w : World) (s : Session) (userId : ObjectId) : Result :=
  let r1 := Booking.find w userId
  let r2 := Notification.find r1.2 userId
  ⟨Response.jsonUpdates r1.1 r2.1, s, r2.2⟩

/-- The handler `POST /booking/cancel/:bookingId`. -/
def postBookingCancel (env : Env) (w : World) (s : Session) (bookingId : ObjectId) : Result :=
  let r := Booking.findById w bookingId
  match r.1 with
  | none => ⟨Response.jsonMessage 404 false "Booking not found", s, r.2⟩
  | some booking =>
    let w1 := Booking.findByIdAndDelete r.2 bookingId
    let w2 := Notification.create env w1 booking.userId
      ("Your booking for " ++ interp booking.room ++ " has been cancelled.") "booking"
    ⟨Response.jsonMessage 200 true "Booking cancelled successfully.", s, w2⟩

/-! ## routes/adminRoutes.js -/

/-- The middleware `requireAdmin`: redirect to the admin login unless the session has the
admin scope, otherwise run the handler. -/
def requireAdmin (w : World) (s : Session) (next : Unit → Result) : Result :=
  if s.admin.isNone then ⟨Response.redirect "/admin/login", s, w⟩ else next ()

/-- The constant `ADMIN_CREDENTIALS.username`. -/
def adminUsername : String := "philmarresortadmin"

/-- The constant `ADMIN_CREDENTIALS.password`. -/
def adminPassword : String := "resortphilmar2025"

/-- The handler `GET /admin/login`. -/
def adminGetLogin (w : World) (s : Session) : Result :=
  if s.admin.isSome then ⟨Response.redirect "/admin/dashboard", s, w⟩
  else ⟨Response.render 200 "adminlog" (Locals.adminlog none), s, w⟩

/-- The handler `POST /admin/login`. -/
def adminPostLogin (w : World) (s : Session) (username password : Option String) : Result :=
  if username = some adminUsername ∧ password = some adminPassword then
    ⟨Response.redirect "/admin/dashboard",
      { s with admin := username, message := some ⟨"success", "Welcome back, Admin!"⟩ }, w⟩
  else
    ⟨Response.render 200 "adminlog" (Locals.adminlog (some "Invalid username or password")),
      s, w⟩

/-- The handler `GET /admin/logout`. -/
def adminLogout (w : World) : Result :=
  ⟨Response.redirect "/admin/login", Session.destroyed, w⟩

/-- The handler `GET /admin`. -/
def adminRoot (w : World) (s : Session) : Result :=
  ⟨Response.redirect "/admin/dashboard", s, w⟩

/-- The expression `agg[0]?.field || 0` on the result of an aggregation. -/
def firstOrZero (agg : List Int) : Int := agg.head?.getD 0

/-- The handler `GET /admin/dashboard`. -/
def adminDashboard (w : World) (s : Session) : Result :=
  requireAdmin w s fun _ =>
    let totalBookings := Booking.countDocuments w none
    let acceptedCount := Booking.countDocuments totalBookings.2 (some "accepted")
    let declinedCount := Booking.countDocuments acceptedCount.2 (some "declined")
    let pendingCount := Booking.countDocuments declinedCount.2 (some "pending")
    let totalGuestsAgg := Booking.aggregate pendingCount.2 none (fun b => b.guests.getD 0)
    let totalGuests := firstOrZero totalGuestsAgg.1
    let totalRevenueAgg :=
      Booking.aggregate totalGuestsAgg.2 (some "accepted") (fun b => b.totalPrice)
    let totalRevenue := firstOrZero totalRevenueAgg.1
    let bookings := Booking.findAll totalRevenueAgg.2
    ⟨Response.render 200 "admin" (Locals.admin
        { admin := s.admin, bookings := bookings.1, totalBookings := totalBookings.1,
          acceptedCount := acceptedCount.1, declinedCount := declinedCount.1,
          pendingCount := pendingCount.1, totalGuests := totalGuests,
          totalRevenue := totalRevenue, message := s.message }),
      { s with message := none }, bookings.2⟩

/-- The handler `GET /admin/analytics`. -/
def adminAnalytics (w : World) (s : Session) : Result :=
  requireAdmin w s fun _ =>
    let totalBookings := Booking.countDocuments w none
    let totalRevenueAgg :=
      Booking.aggregate totalBookings.2 (some "accepted") (fun b => b.totalPrice)
    let totalRevenue := firstOrZero totalRevenueAgg.1
    let totalGuestsAgg := Booking.aggregate totalRevenueAgg.2 none (fun b => b.guests.getD 0)
    let totalGuests := firstOrZero totalGuestsAgg.1
    ⟨Response.render 200 "admin/analytics"
      (Locals.analytics s.admin totalBookings.1 totalRevenue totalGuests), s, totalGuestsAgg.2⟩

/-- The handler `GET /admin/history`. -/
def adminHistory (w : World) (s : Session) : Result :=
  requireAdmin w s fun _ =>
    let bookings := Booking.findAll w
    ⟨Response.render 200 "admin/history" (Locals.history s.admin bookings.1), s, bookings.2⟩

/-- The handler `GET /admin/users`. -/
def adminUsers (w : World) (s : Session) : Result :=
  requireAdmin w s fun _ =>
    let users := User.find w
    ⟨Response.render 200 "admin/users" (Locals.users s.admin users.1), s, users.2⟩

/-- The handler `GET /admin/settings`. -/
def adminSettings (w : World) (s : Session) : Result :=
  requireAdmin w s fun _ =>
    ⟨Response.render 200 "admin/settings" (Locals.settings s.admin), s, w⟩

/-- The handler `POST /admin/accept/:id`. -/
def adminAccept (env : Env) (w : World) (s : Session) (id : ObjectId) : Result :=
  requireAdmin w s fun _ =>
    let r := Booking.findById w id
    match r.1 with
    | none =>
      ⟨Response.redirect "/admin/dashboard",
        { s with message := some ⟨"error", "Booking not found."⟩ }, r.2⟩
    | some booking =>
      let booking := { booking with status := some "accepted" }
      match Booking.save env r.2 booking false with
      | Except.ok sv =>
        let w2 := Notification.create env sv.2 sv.1.userId
          ("✅ Your booking for " ++ interp sv.1.room ++ " has been accepted!") "booking"
        ⟨Response.redirect "/admin/dashboard",
          { s with message := some ⟨"success", "Booking accepted successfully!"⟩ }, w2⟩
      | Except.error _ =>
        ⟨Response.redirect "/admin/dashboard",
          { s with message := some ⟨"error", "Error accepting booking."⟩ }, r.2⟩

/-- The handler `POST /admin/decline/:id`. -/
def adminDecline (env : Env) (w : World) (s : Session) (id : ObjectId) : Result :=
  requireAdmin w s fun _ =>
    let r := Booking.findById w id
    match r.1 with
    | none =>
      ⟨Response.redirect "/admin/dashboard",
        { s with message := some ⟨"error", "Booking not found."⟩ }, r.2⟩
    | some booking =>
      let booking := { booking with status := some "declined" }
      match Booking.save env r.2 booking false with
      | Except.ok sv =>
        let w2 := Notification.create env sv.2 sv.1.userId
          ("❌ Your booking for " ++ interp sv.1.room ++ " has been declined.") "booking"
        ⟨Response.redirect "/admin/dashboard",
          { s with message := some ⟨"success", "Booking declined successfully!"⟩ }, w2⟩
      | Except.error _ =>
        ⟨Response.redirect "/admin/dashboard",
          { s with message := some ⟨"error", "Error declining booking."⟩ }, r.2⟩

/-- The handler `POST /admin/bookings/delete/:id`. -/
def adminDelete (w : World) (s : Session) (id : ObjectId) : Result :=
  requireAdmin w s fun _ =>
    let w1 := Booking.findByIdAndDelete w id
    ⟨Response.redirect "/admin/dashboard",
      { s with message := some ⟨"success", "Booking deleted successfully!"⟩ }, w1⟩

/-! ## The request loop -/

/-- The requests served by the two routers.  The routes that `app.js` declares itself are
not part of this type: the static pages, signup, login, logout, `GET /booking` and
`GET /profile` never write to the Booking collection, and `app.post("/booking/submit")`
is never reached, because the user router is mounted first and its handler for the same
path always answers. -/
inductive Request where
  | getProfile (id : ObjectId)
  | postBookingSubmit (body : SubmitBody)
  | getUserUpdates (userId : ObjectId)
  | postBookingCancel (bookingId : ObjectId)
  | adminGetLogin
  | adminPostLogin (username password : Option String)
  | adminLogout
  | adminRoot
  | adminDashboard
  | adminAnalytics
  | adminHistory
  | adminUsers
  | adminSettings
  | adminAccept (id : ObjectId)
  | adminDecline (id : ObjectId)
  | adminDelete (id : ObjectId)
deriving DecidableEq, Repr

/-- The requests whose route is declared with the middleware `requireAdmin`: dashboard,
analytics, history, users, settings, accept, decline and delete. -/
def Request.adminOnly : Request → Bool
  | Request.adminDashboard => true
  | Request.adminAnalytics => true
  | Request.adminHistory => true
  | Request.adminUsers => true
  | Request.adminSettings => true
  | Request.adminAccept _ => true
  | Request.adminDecline _ => true
  | Request.adminDelete _ => true
  | _ => false

/-- Dispatch of one request to its handler: `app.use("/", userRoutes)` and
`app.use("/admin", adminRoutes)`. -/
def handle (env : Env) (w : World) (s : Session) : Request → Result
  | Request.getProfile id => getProfile w s id
  | Request.postBookingSubmit body => postBookingSubmit env w s body
  | Request.getUserUpdates userId => getUserUpdates w s userId
  | Request.postBookingCancel bookingId => postBookingCancel env w s bookingId
  | Request.adminGetLogin => adminGetLogin w s
  | Request.adminPostLogin username password => adminPostLogin w s username password
  | Request.adminLogout => adminLogout w
  | Request.adminRoot => adminRoot w s
  | Request.adminDashboard => adminDashboard w s
  | Request.adminAnalytics => adminAnalytics w s
  | Request.adminHistory => adminHistory w s
  | Request.adminUsers => adminUsers w s
  | Request.adminSettings => adminSettings w s
  | Request.adminAccept id => adminAccept env w s id
  | Request.adminDecline id => adminDecline env w s id
  | Request.adminDelete id => adminDelete w s id

/-- A store with registered users and no booking or notification yet. -/
def World.initial (users : List User) (nextId : ObjectId) : World :=
  { users := users, bookings := [], notifications := [], nextId := nextId, trace := [] }

/-- The stores reachable, on a server in the time zone `tz`, from an initial store by
handling requests, each at its own instant and with its own session. -/
inductive Reachable (tz : Int) : World → Prop where
  | init (users : List User) (nextId : ObjectId) : Reachable tz (World.initial users nextId)
  | step (now : Int) (w : World) (s : Session) (req : Request) :
      Reachable tz w → Reachable tz (handle ⟨now, tz⟩ w s req).world

/-! ## models/User.js and the authentication routes of app.js

Further conventions.  The bcrypt library is a parameter (`Bcrypt`), and the salt drawn by
`bcrypt.genSalt(12)` is an argument of the operation that draws it.  The schema setters
`trim` and `lowercase` are `String.prototype.trim` and `String.prototype.toLowerCase`:
the first is defined here on the white space of ECMAScript, the second, with its Unicode
case mappings, is a parameter `lc` like the bcrypt library.  A string is its sequence of
Unicode scalar values.  Mongoose applies the setters of a path to the values assigned to
it and to the values of a query filter on it.  The form fields of signup and login are
strings, as the forms send them. -/

/-- The bcrypt library: `hash password salt` and `compare entered stored`. -/
structure Bcrypt where
  hash : String → String → String
  compare : String → String → Bool

/-- The code points that `String.prototype.trim` removes: the WhiteSpace and
LineTerminator productions of ECMAScript (tab, line feed, vertical tab, form feed,
carriage return, space, no-break space, the space separators U+1680, U+2000 to U+200A,
U+202F, U+205F and U+3000, the line and paragraph separators U+2028 and U+2029, and the
byte order mark U+FEFF). -/
def isJsWhiteSpace (c : Char) : Bool :=
  let n := c.toNat
  (9 ≤ n && n ≤ 13) || n == 32 || n == 160 || n == 5760 || (8192 ≤ n && n ≤ 8202)
    || n == 8232 || n == 8233 || n == 8239 || n == 8287 || n == 12288 || n == 65279

/-- The setter `trim: true`: `trim()`, white space removed at both ends. -/
def trimStr (v : String) : String :=
  String.mk ((v.data.dropWhile isJsWhiteSpace).reverse.dropWhile isJsWhiteSpace).reverse

/-- A stand-in for `String.prototype.toLowerCase` in the examples: it lowers the letters
A to Z and leaves every other character as it is, which is what `toLowerCase` does on
strings of ASCII characters. -/
def lower0 (v : String) : String := String.mk (v.data.map Char.toLower)

/-- A user document in memory: its fields, whether it is new, and whether the path
`password` is modified (`this.isModified("password")`). -/
structure UserDoc where
  fields : User
  isNew : Bool
  passwordModified : Bool
deriving DecidableEq, Repr

/-- The `enum` of `userSchema.role`. -/
def roleEnum : List String := ["user", "admin"]

/-- Schema validation of a user document: `fullname`, `email` and `password` are
required, `role` is a member of the enum. -/
def User.validate (u : User) : Bool :=
  decide (u.fullname ≠ "") && decide (u.email ≠ "") && decide (u.password ≠ "")
    && decide (u.role ∈ roleEnum)

/-- The constructor call `new User(fullname, email, password)` with the schema setters
and defaults. -/
def User.new (lc : String → String) (env : Env) (w : World)
    (fullname email password : String) : UserDoc :=
  { fields :=
      { id := w.nextId, fullname := trimStr fullname, username := none,
        email := lc email, password := password, phone := none,
        profileImage := "/images/default-avatar.png", role := "user", createdAt := env.now },
    isNew := true, passwordModified := true }

/-- A document as loaded from the store: not new, no modified path. -/
def User.loaded (u : User) : UserDoc :=
  { fields := u, isNew := false, passwordModified := false }

/-- The hook `userSchema.pre("save")`: hash the password when the path is modified. -/
def User.preSave (bc : Bcrypt) (salt : String) (doc : UserDoc) : User :=
  if !doc.passwordModified then doc.fields
  else { doc.fields with password := bc.hash doc.fields.password salt }

/-- The write `updateOne` by `_id` on the user collection. -/
def updateOneUser (u : User) : List User → List User
  | [] => []
  | c :: cs => if c.id == u.id then u :: cs else c :: updateOneUser u cs

/-- The method `save()` of a user document: validation, the password hook, then the
write.  The insert of a new document is refused by the unique index on `email` when a
stored user has the same email. -/
def User.save (bc : Bcrypt) (salt : String) (w : World) (doc : UserDoc) :
    Except String (User × World) :=
  if User.validate doc.fields then
    let u := User.preSave bc salt doc
    let w1 := w.log Access.writeUsers
    if doc.isNew then
      if w1.users.any (fun c => c.email == u.email) then
        Except.error "E11000 duplicate key error"
      else
        Except.ok (u, { w1 with users := w1.users ++ [u], nextId := w1.nextId + 1 })
    else
      Except.ok (u, { w1 with users := updateOneUser u w1.users })
  else
    Except.error "User validation failed"

/-- The method `comparePassword`. -/
def User.comparePassword (bc : Bcrypt) (u : User) (enteredPassword : String) : Bool :=
  bc.compare enteredPassword u.password

/-- The argument of `updateProfile`. -/
structure ProfileData where
  fullname : Option String
  phone : Option String
  profileImage : Option String
deriving DecidableEq, Repr

/-- The method `updateProfile`: assign the truthy fields of `data` through the schema
setters, then `save()`. -/
def User.updateProfile (bc : Bcrypt) (salt : String) (w : World) (doc : UserDoc)
    (data : ProfileData) : Except String (User × World) :=
  let u1 := if falsyStr data.fullname then doc.fields
    else { doc.fields with fullname := trimStr (data.fullname.getD "") }
  let u2 := if falsyStr data.phone then u1
    else { u1 with phone := some (trimStr (data.phone.getD "")) }
  let u3 := if falsyStr data.profileImage then u2
    else { u2 with profileImage := data.profileImage.getD "" }
  User.save bc salt w { doc with fields := u3 }

/-- The query `User.findOne` by `email`. -/
def User.findOneByEmail (lc : String → String) (w : World) (email : String) :
    Option User × World :=
  (w.users.find? (fun u => u.email == lc email), w.log Access.readUsers)

/-- The query `User.findOne` with `$or` of `email: username` and `username`. -/
def User.findOneByEmailOrUsername (lc : String → String) (w : World) (username : String) :
    Option User × World :=
  (w.users.find? (fun u => u.email == lc username
      || u.username == some (trimStr username)),
    w.log Access.readUsers)

/-- The locals of the `login` and `signup` views. -/
structure AuthLocals where
  title : String
  error : Option String
  success : Option String
deriving DecidableEq, Repr

/-- What the signup and login handlers send back. -/
inductive AuthResponse where
  | redirect (url : String)
  | render (view : String) (locals : AuthLocals)
deriving DecidableEq, Repr

/-- The outcome of a signup or login request. -/
structure AuthResult where
  response : AuthResponse
  session : Session
  world : World
deriving DecidableEq, Repr

/-- The handler `POST /signup`. -/
def postSignup (bc : Bcrypt) (lc : String → String) (salt : String) (env : Env) (w : World)
    (s : Session)
    (fullname email password : String) : AuthResult :=
  let existingUser := User.findOneByEmail lc w email
  match existingUser.1 with
  | some _ =>
    ⟨AuthResponse.render "signup"
      ⟨"Sign Up | Philmar Resort", some "Email already registered. Please login instead.",
        none⟩, s, existingUser.2⟩
  | none =>
    let newUser := User.new lc env existingUser.2 fullname email password
    match User.save bc salt existingUser.2 newUser with
    | Except.ok r =>
      ⟨AuthResponse.render "login"
        ⟨"Login / Signup | Philmar Resort", none,
          some "Account created successfully! You can now login."⟩, s, r.2⟩
    | Except.error _ =>
      ⟨AuthResponse.render "signup"
        ⟨"Sign Up | Philmar Resort", some "Something went wrong. Please try again later.",
          none⟩, s, existingUser.2⟩

/-- The expression `user.username || user.email.split("@")[0]`. -/
def sessionUsername (user : User) : String :=
  if falsyStr user.username then String.mk (user.email.data.takeWhile (fun c => c != '@'))
  else user.username.getD ""

/-- The handler `POST /login`. -/
def postLogin (bc : Bcrypt) (lc : String → String) (w : World) (s : Session)
    (username password : String) :
    AuthResult :=
  let r := User.findOneByEmailOrUsername lc w username
  match r.1 with
  | none =>
    ⟨AuthResponse.render "login"
      ⟨"Login / Signup | Philmar Resort", some "User not found. Please sign up first.",
        none⟩, s, r.2⟩
  | some user =>
    let isMatch := User.comparePassword bc user password
    if !isMatch then
      ⟨AuthResponse.render "login"
        ⟨"Login / Signup | Philmar Resort", some "Incorrect password.", none⟩, s, r.2⟩
    else
      ⟨AuthResponse.redirect "/profile",
        { s with user := some ⟨user.id, user.fullname, user.email, sessionUsername user⟩ },
        r.2⟩

/-! ## Auxiliary definitions and concrete data for the proofs -/

/-- The status left by the second hook, as a function of the status before it. -/
def statusAfterHook (st : Option String) : Option String :=
  match st with
  | none => some "pending"
  | some s => if s = "" then some "pending" else some s

/-- The document that a successful `save()` hands to the store, before the write. -/
def prepared (w : World) (doc : Booking) : Booking :=
  (preSaveName w (preSaveStatus (preSavePrice doc))).1

/-- The parts of the store outside the access log. -/
def World.sameData (w w2 : World) : Prop :=
  w2.users = w.users ∧ w2.bookings = w.bookings ∧ w2.notifications = w.notifications
    ∧ w2.nextId = w.nextId

/-- The four things one request can do to the ledger: nothing; append one new, validated
booking with a fresh id and status pending (submit); replace one stored booking by its
re-saved copy with status accepted or declined, on an admin-scoped request (accept,
decline); remove the first booking with some id (cancel, admin delete).  The counter of
fresh ids never decreases, and an insertion increases it. -/
inductive LedgerChange (env : Env) (w : World) (s : Session) (req : Request) (w2 : World) :
    Prop where
  | unchanged : w2.bookings = w.bookings → w.nextId ≤ w2.nextId →
      LedgerChange env w s req w2
  | inserted (body : SubmitBody) (doc saved : Booking) (w1 : World) :
      req = Request.postBookingSubmit body →
      doc.id = w.nextId → doc.status = some "pending" →
      Booking.save env w doc true = Except.ok (saved, w1) →
      w2.bookings = w.bookings ++ [saved] → w.nextId < w2.nextId →
      LedgerChange env w s req w2
  | updated (id : ObjectId) (b saved : Booking) (st : String) (w0 w1 : World) :
      s.admin.isSome = true → w.bookings.find? (fun x => x.id == id) = some b →
      ((req = Request.adminAccept id ∧ st = "accepted")
        ∨ (req = Request.adminDecline id ∧ st = "declined")) →
      Booking.save env w0 { b with status := some st } false = Except.ok (saved, w1) →
      w2.bookings = updateOne saved w.bookings → w.nextId ≤ w2.nextId →
      LedgerChange env w s req w2
  | deleted (id : ObjectId) :
      (req = Request.postBookingCancel id
        ∨ (req = Request.adminDelete id ∧ s.admin.isSome = true)) →
      w2.bookings = deleteOne id w.bookings →
      w.nextId ≤ w2.nextId → LedgerChange env w s req w2

/-- The price fields of a stored booking agree with its room and dates. -/
def priceOk (b : Booking) : Prop :=
  b.pricePerNight = (b.room.bind roomRates).getD 0 ∧ b.totalPrice = b.pricePerNight * nights b

/-- Well-formedness of the ledger of a server in the time zone `tz`: ids are unique and
below the counter of fresh ids, every stored booking passed validation at some instant,
and its price fields agree with its room and dates. -/
def LedgerOk (tz : Int) (w : World) : Prop :=
  (w.bookings.map Booking.id).Nodup
  ∧ (∀ b ∈ w.bookings, b.id < w.nextId)
  ∧ (∀ b ∈ w.bookings, ∃ now0, validate ⟨now0, tz⟩ b = true)
  ∧ (∀ b ∈ w.bookings, priceOk b)

/-- A clock: 1 January 2025, 08:00 UTC, in a zone eight hours ahead of UTC. -/
def env0 : Env := { now := 1735718400000, tzOffset := 28800000 }

/-- One registered guest. -/
def user0 : User :=
  { id := 1, fullname := "Ana Cruz", username := none, email := "ana@example.com",
    password := "hash", phone := none, profileImage := "/images/default-avatar.png",
    role := "user", createdAt := 0 }

/-- A store with one registered guest and nothing else. -/
def world0 : World := World.initial [user0] 2

/-- A new booking of a bahaykubo from the next day for two nights, with client-supplied
price fields. -/
def doc0 : Booking :=
  { Booking.new world0 (some 1) (some "bahaykubo") (some (env0.now + msPerDay))
      (some (env0.now + 3 * msPerDay)) (some 2) with pricePerNight := 7, totalPrice := 9 }

/-- The booking `doc0` as persisted. -/
def saved0 : Booking :=
  { id := 2, userId := some 1, name := "Ana Cruz", room := some "bahaykubo",
    pricePerNight := 1500, totalPrice := 3000, salesCategory := "accommodation",
    checkin := some 1735804800000, checkout := some 1735977600000, guests := some 2,
    contact := none, specialRequests := none, status := some "pending",
    createdAt := 1735718400000 }

/-- The store after `doc0` was saved. -/
def world1 : World :=
  { users := [user0], bookings := [saved0], notifications := [], nextId := 3,
    trace := [Access.writeBookings, Access.readUsers] }

/-- The notification of the submission of `doc0`. -/
def note0 : Notification :=
  { id := 3, userId := some 1,
    message := "Your booking request for bahaykubo has been submitted and is pending approval.",
    type := "booking", createdAt := 1735718400000, read := false }

/-- The body of the submission that creates `saved0`. -/
def body0 : SubmitBody :=
  { userId := some 1, room := some "bahaykubo", checkin := some (env0.now + msPerDay),
    checkout := some (env0.now + 3 * msPerDay), guests := some 2 }

/-- The store after the submission `body0` was handled in `world0`. -/
def world2 : World :=
  { users := [user0], bookings := [saved0], notifications := [note0], nextId := 4,
    trace := [Access.writeNotifications, Access.writeBookings, Access.readUsers] }

/-- The clock five days after `env0`: the check-in day of `saved0` has passed. -/
def env5 : Env := { now := env0.now + 5 * msPerDay, tzOffset := env0.tzOffset }

/-- A session without any scope. -/
def session0 : Session := { user := none, admin := none, message := none }

/-- A session with the admin scope only. -/
def sessionAdmin : Session :=
  { user := none, admin := some "philmarresortadmin", message := none }

/-- The store after the administrator declined `saved0` on the day of its submission. -/
def world3 : World := (handle env0 world2 sessionAdmin (Request.adminDecline 2)).world

/-- A stand-in for the bcrypt library in the examples. -/
def bcrypt0 : Bcrypt :=
  { hash := fun password salt => salt ++ "$" ++ password,
    compare := fun entered stored => decide (stored = "salt0$" ++ entered) }

/-- The fields of a user after the three conditional assignments of `updateProfile`. -/
def applyProfile (u : User) (data : ProfileData) : User :=
  let u1 := if falsyStr data.fullname then u
    else { u with fullname := trimStr (data.fullname.getD "") }
  let u2 := if falsyStr data.phone then u1
    else { u1 with phone := some (trimStr (data.phone.getD "")) }
  if falsyStr data.profileImage then u2
  else { u2 with profileImage := data.profileImage.getD "" }

/-- The store after the first signup on an empty store. -/
def worldS : World :=
  (postSignup bcrypt0 lower0 "salt0" env0 (World.initial [] 0) session0 "Ana Cruz"
    "Ana@Example.com" "secret").world

/-- The user stored by that signup. -/
def userS : User :=
  { id := 0, fullname := "Ana Cruz", username := none, email := "ana@example.com",
    password := "salt0$secret", phone := none, profileImage := "/images/default-avatar.png",
    role := "user", createdAt := 1735718400000 }

/-- Well-formedness of the user store: emails are unique and lowercase, ids are unique
and below the counter of fresh ids. -/
def UsersOk (lc : String → String) (w : World) : Prop :=
  (w.users.map User.email).Nodup
  ∧ (w.users.map User.id).Nodup
  ∧ (∀ u ∈ w.users, u.id < w.nextId)
  ∧ (∀ u ∈ w.users, ∃ e, u.email = lc e)

/-- The store left by an operation that may fail: the new store, or the old one. -/
def worldAfter (w : World) (r : Except String (User × World)) : World :=
  match r with
  | Except.ok p => p.2
  | Except.error _ => w

/-- The stores reachable from a store without users by requests to the two routers,
signups, logins and profile updates of stored users. -/
inductive ReachableApp (bc : Bcrypt) (lc : String → String) (tz : Int) : World → Prop where
  | init (nextId : ObjectId) : ReachableApp bc lc tz (World.initial [] nextId)
  | router (now : Int) (w : World) (s : Session) (req : Request) :
      ReachableApp bc lc tz w → ReachableApp bc lc tz (handle ⟨now, tz⟩ w s req).world
  | signup (salt : String) (now : Int) (w : World) (s : Session)
      (fullname email password : String) :
      ReachableApp bc lc tz w →
      ReachableApp bc lc tz (postSignup bc lc salt ⟨now, tz⟩ w s fullname email password).world
  | login (w : World) (s : Session) (username password : String) :
      ReachableApp bc lc tz w → ReachableApp bc lc tz (postLogin bc lc w s username password).world
  | updateProfile (salt : String) (w : World) (u : User) (data : ProfileData) :
      u ∈ w.users → ReachableApp bc lc tz w →
      ReachableApp bc lc tz (worldAfter w (User.updateProfile bc salt w (User.loaded u) data))

/-! ## Facts about `save` -/

theorem msPerDay_eq : msPerDay = 86400000 := by decide

theorem preSaveName_fields (w : World) (doc : Booking) :
    (preSaveName w doc).1.id = doc.id ∧ (preSaveName w doc).1.userId = doc.userId
    ∧ (preSaveName w doc).1.room = doc.room
    ∧ (preSaveName w doc).1.pricePerNight = doc.pricePerNight
    ∧ (preSaveName w doc).1.totalPrice = doc.totalPrice
    ∧ (preSaveName w doc).1.checkin = doc.checkin
    ∧ (preSaveName w doc).1.checkout = doc.checkout
    ∧ (preSaveName w doc).1.guests = doc.guests
    ∧ (preSaveName w doc).1.status = doc.status
    ∧ (preSaveName w doc).1.createdAt = doc.createdAt := by
  unfold preSaveName User.findById
  cases hd : doc.userId with
  | none => simp [hd]
  | some uid =>
    by_cases hn : doc.name = ""
    · cases hf : w.users.find? (fun u => u.id == uid) with
      | none => simp [hn, hf, hd]
      | some u => by_cases hu : u.fullname = "" <;> simp [hn, hf, hu, hd]
    · simp [hn, hd]

theorem preSaveName_world (w : World) (doc : Booking) :
    (preSaveName w doc).2.users = w.users ∧ (preSaveName w doc).2.bookings = w.bookings
    ∧ (preSaveName w doc).2.notifications = w.notifications
    ∧ (preSaveName w doc).2.nextId = w.nextId := by
  unfold preSaveName User.findById
  cases hd : doc.userId with
  | none => simp
  | some uid =>
    by_cases hn : doc.name = ""
    · cases hf : w.users.find? (fun u => u.id == uid) with
      | none => simp [hn, hf, World.log]
      | some u => by_cases hu : u.fullname = "" <;> simp [hn, hf, hu, World.log]
    · simp [hn]

theorem preSaveStatus_fields (doc : Booking) :
    (preSaveStatus doc).id = doc.id ∧ (preSaveStatus doc).userId = doc.userId
    ∧ (preSaveStatus doc).room = doc.room
    ∧ (preSaveStatus doc).pricePerNight = doc.pricePerNight
    ∧ (preSaveStatus doc).totalPrice = doc.totalPrice
    ∧ (preSaveStatus doc).checkin = doc.checkin
    ∧ (preSaveStatus doc).checkout = doc.checkout
    ∧ (preSaveStatus doc).guests = doc.guests
    ∧ (preSaveStatus doc).createdAt = doc.createdAt := by
  unfold preSaveStatus
  split
  · simp
  · split <;> simp

theorem preSaveStatus_status (doc : Booking) :
    (preSaveStatus doc).status = statusAfterHook doc.status := by
  unfold preSaveStatus statusAfterHook
  cases hs : doc.status with
  | none => rfl
  | some s => by_cases h : s = "" <;> simp [h, hs]

theorem save_ok_iff (env : Env) (w : World) (doc : Booking) (isNew : Bool)
    (saved : Booking) (w2 : World) :
    Booking.save env w doc isNew = Except.ok (saved, w2) ↔
      validate env doc = true ∧
      (saved, w2) =
        (if isNew then
          ({ prepared w doc with createdAt := env.now },
            { (preSaveName w (preSaveStatus (preSavePrice doc))).2.log Access.writeBookings with
              bookings := (preSaveName w (preSaveStatus (preSavePrice doc))).2.bookings
                ++ [{ prepared w doc with createdAt := env.now }],
              nextId := (preSaveName w (preSaveStatus (preSavePrice doc))).2.nextId + 1 })
        else
          (prepared w doc,
            { (preSaveName w (preSaveStatus (preSavePrice doc))).2.log Access.writeBookings with
              bookings := updateOne (prepared w doc)
                (preSaveName w (preSaveStatus (preSavePrice doc))).2.bookings })) := by
  unfold Booking.save prepared
  by_cases hv : validate env doc = true
  · cases isNew <;> simp [hv, World.log, eq_comm]
  · simp [hv]

theorem nights_eq_ceil (doc : Booking) (ci co : Int) (h1 : doc.checkin = some ci)
    (h2 : doc.checkout = some co) :
    nights doc = ⌈((co - ci : Int) : ℚ) / 86400000⌉ := by
  have hq : ((co - ci : Int) : ℚ) / 86400000
      = -(((-(co - ci) : Int) : ℚ) / ((86400000 : ℕ) : ℚ)) := by
    push_cast
    ring
  rw [hq, Int.ceil_neg, Rat.floor_intCast_div_natCast]
  unfold nights
  rw [h1, h2, msPerDay_eq]
  rfl

theorem nights_congr (a b : Booking) (h1 : a.checkin = b.checkin)
    (h2 : a.checkout = b.checkout) : nights a = nights b := by
  unfold nights
  rw [h1, h2]

theorem prepared_fields (w : World) (doc : Booking) :
    (prepared w doc).id = doc.id ∧ (prepared w doc).userId = doc.userId
    ∧ (prepared w doc).room = doc.room
    ∧ (prepared w doc).checkin = doc.checkin
    ∧ (prepared w doc).checkout = doc.checkout
    ∧ (prepared w doc).guests = doc.guests
    ∧ (prepared w doc).createdAt = doc.createdAt
    ∧ (prepared w doc).status = statusAfterHook doc.status
    ∧ (prepared w doc).pricePerNight = (doc.room.bind roomRates).getD 0
    ∧ (prepared w doc).totalPrice = (doc.room.bind roomRates).getD 0 * nights doc := by
  obtain ⟨n1, n2, n3, n4, n5, n6, n7, n8, n9, n10⟩ :=
    preSaveName_fields w (preSaveStatus (preSavePrice doc))
  obtain ⟨s1, s2, s3, s4, s5, s6, s7, s8, s9⟩ := preSaveStatus_fields (preSavePrice doc)
  unfold prepared
  rw [n1, n2, n3, n4, n5, n6, n7, n8, n9, n10, s1, s2, s3, s4, s5, s6, s7, s8, s9]
  exact ⟨rfl, rfl, rfl, rfl, rfl, rfl, rfl, preSaveStatus_status (preSavePrice doc), rfl, rfl⟩

theorem save_fields (env : Env) (w : World) (doc : Booking) (isNew : Bool)
    (saved : Booking) (w2 : World)
    (h : Booking.save env w doc isNew = Except.ok (saved, w2)) :
    validate env doc = true ∧ saved.id = doc.id ∧ saved.userId = doc.userId
    ∧ saved.room = doc.room ∧ saved.checkin = doc.checkin ∧ saved.checkout = doc.checkout
    ∧ saved.guests = doc.guests
    ∧ saved.status = statusAfterHook doc.status
    ∧ saved.pricePerNight = (doc.room.bind roomRates).getD 0
    ∧ saved.totalPrice = (doc.room.bind roomRates).getD 0 * nights doc := by
  obtain ⟨hv, he⟩ := (save_ok_iff env w doc isNew saved w2).1 h
  obtain ⟨p1, p2, p3, p4, p5, p6, _, p8, p9, p10⟩ := prepared_fields w doc
  cases isNew
  · simp only [Bool.false_eq_true, if_false, Prod.mk.injEq] at he
    rw [he.1]
    exact ⟨hv, p1, p2, p3, p4, p5, p6, p8, p9, p10⟩
  · simp only [if_true, Prod.mk.injEq] at he
    rw [he.1]
    exact ⟨hv, p1, p2, p3, p4, p5, p6, p8, p9, p10⟩

theorem save_world (env : Env) (w : World) (doc : Booking) (isNew : Bool)
    (saved : Booking) (w2 : World)
    (h : Booking.save env w doc isNew = Except.ok (saved, w2)) :
    w2.users = w.users ∧ w2.notifications = w.notifications
    ∧ w2.bookings = (if isNew then w.bookings ++ [saved] else updateOne saved w.bookings) := by
  obtain ⟨_, he⟩ := (save_ok_iff env w doc isNew saved w2).1 h
  obtain ⟨q1, q2, q3, _⟩ := preSaveName_world w (preSaveStatus (preSavePrice doc))
  cases isNew
  · simp only [Bool.false_eq_true, if_false, Prod.mk.injEq] at he
    rw [he.1, he.2]
    simp [World.log, q1, q2, q3]
  · simp only [if_true, Prod.mk.injEq] at he
    rw [he.1, he.2]
    simp [World.log, q1, q2, q3]

theorem validRoom_rate (doc : Booking) (h : validRoom doc = true) :
    ∃ r v, doc.room = some r ∧ r ∈ roomEnum ∧ roomRates r = some v ∧ 0 < v := by
  unfold validRoom at h
  cases hr : doc.room with
  | none => simp [hr] at h
  | some r =>
    simp only [hr, Bool.and_eq_true, decide_eq_true_eq] at h
    refine ⟨r, (roomRates r).getD 0, rfl, h.2, ?_, ?_⟩
    · have hm := h.2
      simp only [roomEnum, List.mem_cons, List.mem_singleton, List.not_mem_nil, or_false] at hm
      rcases hm with rfl | rfl | rfl | rfl | rfl <;> decide
    · have hm := h.2
      simp only [roomEnum, List.mem_cons, List.mem_singleton, List.not_mem_nil, or_false] at hm
      rcases hm with rfl | rfl | rfl | rfl | rfl <;> decide

theorem validate_parts (env : Env) (doc : Booking) (h : validate env doc = true) :
    validUserId doc = true ∧ validRoom doc = true ∧ validCheckin env doc = true
    ∧ validCheckout env doc = true ∧ validGuests doc = true ∧ validStatus doc = true := by
  unfold validate at h
  simp only [Bool.and_eq_true] at h
  obtain ⟨⟨⟨⟨⟨h1, h2⟩, h3⟩, h4⟩, h5⟩, h6⟩ := h
  exact ⟨h1, h2, h3, h4, h5, h6⟩

theorem save_ok_of_validate (env : Env) (w : World) (doc : Booking) (isNew : Bool)
    (hv : validate env doc = true) :
    ∃ saved w2, Booking.save env w doc isNew = Except.ok (saved, w2) := by
  unfold Booking.save
  cases isNew <;> simp [hv]

theorem save_error_of_not_validate (env : Env) (w : World) (doc : Booking) (isNew : Bool)
    (hv : validate env doc = false) :
    Booking.save env w doc isNew = Except.error "Booking validation failed" := by
  unfold Booking.save
  simp [hv]

/-! ## Facts about the submit handler -/

theorem submit_of_save_ok (env : Env) (w : World) (s : Session) (body : SubmitBody)
    (saved : Booking) (w2 : World) (hm : missingDetails body = false)
    (h : Booking.save env w
      (Booking.new w body.userId body.room body.checkin body.checkout body.guests) true
        = Except.ok (saved, w2)) :
    postBookingSubmit env w s body =
      ⟨Response.redirect ("/profile/" ++ toString (body.userId.getD 0)), s,
        Notification.create env w2 body.userId
          ("Your booking request for " ++ interp body.room
            ++ " has been submitted and is pending approval.") "booking"⟩ := by
  unfold postBookingSubmit
  simp [hm, h]

theorem submit_of_not_validate (env : Env) (w : World) (s : Session) (body : SubmitBody)
    (hv : validate env
      (Booking.new w body.userId body.room body.checkin body.checkout body.guests) = false) :
    (postBookingSubmit env w s body).world = w
    ∧ (postBookingSubmit env w s body).session = s
    ∧ ((postBookingSubmit env w s body).response = Response.send 400 "Missing booking details."
      ∨ (postBookingSubmit env w s body).response
        = Response.render 500 "error" (Locals.error "Booking submission failed.")) := by
  unfold postBookingSubmit
  by_cases hm : missingDetails body = true
  · simp [hm]
  · simp [hm, save_error_of_not_validate env w _ true hv]

theorem submit_valid (env : Env) (w : World) (s : Session) (uid : ObjectId) (r : String)
    (ci co g : Int) (hr : r ∈ roomEnum) (hci : checkinValidator env ci = true)
    (hco : setHoursZero env.tzOffset co > setHoursZero env.tzOffset ci)
    (hg1 : 1 ≤ g) (hg2 : g ≤ 20) :
    ∃ b n,
      (postBookingSubmit env w s ⟨some uid, some r, some ci, some co, some g⟩).world.bookings
        = w.bookings ++ [b]
      ∧ (postBookingSubmit env w s
          ⟨some uid, some r, some ci, some co, some g⟩).world.notifications
        = w.notifications ++ [n]
      ∧ (postBookingSubmit env w s ⟨some uid, some r, some ci, some co, some g⟩).world.users
        = w.users
      ∧ (postBookingSubmit env w s ⟨some uid, some r, some ci, some co, some g⟩).response
        = Response.redirect ("/profile/" ++ toString uid)
      ∧ b.id = w.nextId ∧ b.userId = some uid ∧ b.room = some r ∧ b.checkin = some ci
      ∧ b.checkout = some co ∧ b.guests = some g ∧ b.status = some "pending"
      ∧ roomRates r = some b.pricePerNight ∧ b.totalPrice = b.pricePerNight * nights b
      ∧ n.userId = some uid ∧ n.type = "booking"
      ∧ n.message = "Your booking request for " ++ r
          ++ " has been submitted and is pending approval." := by
  have hne : r ≠ "" := by
    intro h
    rw [h] at hr
    revert hr
    decide
  have hv : validate env (Booking.new w (some uid) (some r) (some ci) (some co) (some g))
      = true := by
    simp [validate, validUserId, validRoom, validCheckin, validCheckout, validGuests,
      validStatus, Booking.new, checkoutValidator, hci, hco, hg1, hg2, hr, hne, statusEnum]
  obtain ⟨saved, w2, hs⟩ := save_ok_of_validate env w _ true hv
  have hm : missingDetails ⟨some uid, some r, some ci, some co, some g⟩ = false := by
    have hg0 : g ≠ 0 := by omega
    simp [missingDetails, falsyStr, falsyNum, hne, hg0]
  rw [submit_of_save_ok env w s _ saved w2 hm hs]
  obtain ⟨_, f1, f2, f3, f4, f5, f6, f7, f8, f9⟩ := save_fields env w _ true saved w2 hs
  obtain ⟨u1, u2, u3⟩ := save_world env w _ true saved w2 hs
  obtain ⟨_, hvr, _, _, _, _⟩ := validate_parts env _ hv
  obtain ⟨r2, v, hr2, _, hrate, _⟩ := validRoom_rate _ hvr
  have hrr : r2 = r := by
    simp [Booking.new] at hr2
    exact hr2.symm
  subst hrr
  refine ⟨saved, Notification.mk w2.nextId (some uid)
      ("Your booking request for " ++ r2 ++ " has been submitted and is pending approval.")
      "booking" env.now false,
    ?_, ?_, ?_, rfl, f1, f2, f3, f4, f5, f6, ?_, ?_, ?_, rfl, rfl, rfl⟩
  · simp [Notification.create, u3]
  · simp [Notification.create, u2, interp]
  · simp [Notification.create, u1]
  · rw [f7]
    rfl
  · rw [f8]
    simp [Booking.new, hrate]
  · rw [f9, f8, nights_congr saved _ f4 f5]

/-! ## Facts about the accept, decline, cancel and delete handlers -/

theorem requireAdmin_of_admin (w : World) (s : Session) (next : Unit → Result)
    (h : s.admin.isSome = true) : requireAdmin w s next = next () := by
  unfold requireAdmin
  cases ha : s.admin with
  | none => simp [ha] at h
  | some a => simp

theorem requireAdmin_of_not_admin (w : World) (s : Session) (next : Unit → Result)
    (h : s.admin = none) :
    requireAdmin w s next = ⟨Response.redirect "/admin/login", s, w⟩ := by
  unfold requireAdmin
  simp [h]

theorem accept_not_found (env : Env) (w : World) (s : Session) (id : ObjectId)
    (ha : s.admin.isSome = true) (hf : w.bookings.find? (fun b => b.id == id) = none) :
    adminAccept env w s id =
      ⟨Response.redirect "/admin/dashboard",
        { s with message := some ⟨"error", "Booking not found."⟩ },
        w.log Access.readBookings⟩ := by
  unfold adminAccept
  rw [requireAdmin_of_admin w s _ ha]
  simp [Booking.findById, hf]

theorem accept_of_save_ok (env : Env) (w : World) (s : Session) (id : ObjectId)
    (b saved : Booking) (w2 : World) (ha : s.admin.isSome = true)
    (hf : w.bookings.find? (fun b => b.id == id) = some b)
    (hs : Booking.save env (w.log Access.readBookings) { b with status := some "accepted" }
      false = Except.ok (saved, w2)) :
    adminAccept env w s id =
      ⟨Response.redirect "/admin/dashboard",
        { s with message := some ⟨"success", "Booking accepted successfully!"⟩ },
        Notification.create env w2 saved.userId
          ("✅ Your booking for " ++ interp saved.room ++ " has been accepted!") "booking"⟩ := by
  unfold adminAccept
  rw [requireAdmin_of_admin w s _ ha]
  simp [Booking.findById, hf, hs]

theorem accept_of_save_error (env : Env) (w : World) (s : Session) (id : ObjectId)
    (b : Booking) (e : String) (ha : s.admin.isSome = true)
    (hf : w.bookings.find? (fun b => b.id == id) = some b)
    (hs : Booking.save env (w.log Access.readBookings) { b with status := some "accepted" }
      false = Except.error e) :
    adminAccept env w s id =
      ⟨Response.redirect "/admin/dashboard",
        { s with message := some ⟨"error", "Error accepting booking."⟩ },
        w.log Access.readBookings⟩ := by
  unfold adminAccept
  rw [requireAdmin_of_admin w s _ ha]
  simp [Booking.findById, hf, hs]

theorem decline_not_found (env : Env) (w : World) (s : Session) (id : ObjectId)
    (ha : s.admin.isSome = true) (hf : w.bookings.find? (fun b => b.id == id) = none) :
    adminDecline env w s id =
      ⟨Response.redirect "/admin/dashboard",
        { s with message := some ⟨"error", "Booking not found."⟩ },
        w.log Access.readBookings⟩ := by
  unfold adminDecline
  rw [requireAdmin_of_admin w s _ ha]
  simp [Booking.findById, hf]

theorem decline_of_save_ok (env : Env) (w : World) (s : Session) (id : ObjectId)
    (b saved : Booking) (w2 : World) (ha : s.admin.isSome = true)
    (hf : w.bookings.find? (fun b => b.id == id) = some b)
    (hs : Booking.save env (w.log Access.readBookings) { b with status := some "declined" }
      false = Except.ok (saved, w2)) :
    adminDecline env w s id =
      ⟨Response.redirect "/admin/dashboard",
        { s with message := some ⟨"success", "Booking declined successfully!"⟩ },
        Notification.create env w2 saved.userId
          ("❌ Your booking for " ++ interp saved.room ++ " has been declined.") "booking"⟩ := by
  unfold adminDecline
  rw [requireAdmin_of_admin w s _ ha]
  simp [Booking.findById, hf, hs]

theorem decline_of_save_error (env : Env) (w : World) (s : Session) (id : ObjectId)
    (b : Booking) (e : String) (ha : s.admin.isSome = true)
    (hf : w.bookings.find? (fun b => b.id == id) = some b)
    (hs : Booking.save env (w.log Access.readBookings) { b with status := some "declined" }
      false = Except.error e) :
    adminDecline env w s id =
      ⟨Response.redirect "/admin/dashboard",
        { s with message := some ⟨"error", "Error declining booking."⟩ },
        w.log Access.readBookings⟩ := by
  unfold adminDecline
  rw [requireAdmin_of_admin w s _ ha]
  simp [Booking.findById, hf, hs]

/-- Validation does not look at the price fields, the name or the sales category, and
looks at the status only through the enumeration. -/
theorem validate_congr (env : Env) (a b : Booking) (h1 : a.userId = b.userId)
    (h2 : a.room = b.room) (h3 : a.checkin = b.checkin) (h4 : a.checkout = b.checkout)
    (h5 : a.guests = b.guests) (h6 : validStatus a = validStatus b) :
    validate env a = validate env b := by
  unfold validate validUserId validRoom validCheckin validCheckout validGuests
    checkoutValidator
  rw [h1, h2, h3, h4, h5, h6]

/-- Only the check-in validator reads the clock. -/
theorem validate_at_other_time (tz now0 now : Int) (b : Booking)
    (h : validate ⟨now0, tz⟩ b = true) (hc : validCheckin ⟨now, tz⟩ b = true) :
    validate ⟨now, tz⟩ b = true := by
  obtain ⟨h1, h2, _, h4, h5, h6⟩ := validate_parts _ b h
  have h4b : validCheckout ⟨now, tz⟩ b = true := h4
  unfold validate
  simp [h1, h2, hc, h4b, h5, h6]

theorem validStatus_of_enum (b : Booking) (st : String) (h : st ∈ statusEnum) :
    validStatus { b with status := some st } = true := by
  simp [validStatus, h]

/-- A saved document passes the validation that its source passed. -/
theorem save_validate (env : Env) (w : World) (doc : Booking) (isNew : Bool)
    (saved : Booking) (w2 : World)
    (h : Booking.save env w doc isNew = Except.ok (saved, w2)) :
    validate env saved = true := by
  obtain ⟨hv, _, f2, f3, f4, f5, f6, f7, _, _⟩ := save_fields env w doc isNew saved w2 h
  rw [validate_congr env saved doc f2 f3 f4 f5 f6 ?_]
  · exact hv
  · obtain ⟨_, _, _, _, _, hs⟩ := validate_parts env doc hv
    rw [hs]
    unfold validStatus at hs ⊢
    rw [f7]
    unfold statusAfterHook
    cases hd : doc.status with
    | none => simp [statusEnum]
    | some st =>
      rw [hd] at hs
      by_cases he : st = ""
      · simp [he, statusEnum]
      · simpa [he] using hs

/-! ## Facts about `updateOne`, `deleteOne` and lookups by id -/

theorem mem_updateOne (d x : Booking) (bs : List Booking) (h : x ∈ updateOne d bs) :
    x = d ∨ x ∈ bs := by
  induction bs with
  | nil => simp [updateOne] at h
  | cons b bs ih =>
    unfold updateOne at h
    by_cases hb : (b.id == d.id) = true
    · simp only [hb, if_true, List.mem_cons] at h
      rcases h with h | h
      · exact Or.inl h
      · exact Or.inr (List.mem_cons_of_mem _ h)
    · simp only [hb, Bool.false_eq_true, if_false, List.mem_cons] at h
      rcases h with h | h
      · exact Or.inr (by rw [h]; exact List.mem_cons_self _ _)
      · rcases ih h with h2 | h2
        · exact Or.inl h2
        · exact Or.inr (List.mem_cons_of_mem _ h2)

theorem map_id_updateOne (d : Booking) (bs : List Booking) :
    (updateOne d bs).map Booking.id = bs.map Booking.id := by
  induction bs with
  | nil => rfl
  | cons b bs ih =>
    unfold updateOne
    by_cases hb : (b.id == d.id) = true
    · have hbd : b.id = d.id := by simpa using hb
      simp [hb, hbd]
    · simp [hb, ih]

theorem find_updateOne_self (d b : Booking) (bs : List Booking)
    (hf : bs.find? (fun x => x.id == d.id) = some b) :
    (updateOne d bs).find? (fun x => x.id == d.id) = some d := by
  induction bs with
  | nil => simp at hf
  | cons c bs ih =>
    unfold updateOne
    by_cases hc : (c.id == d.id) = true
    · simp [hc, List.find?_cons]
    · simp only [hc, Bool.false_eq_true, if_false, List.find?_cons]
      simp only [List.find?_cons, hc] at hf
      exact ih hf

theorem find_updateOne_other (d : Booking) (j : ObjectId) (bs : List Booking)
    (hj : d.id ≠ j) :
    (updateOne d bs).find? (fun x => x.id == j) = bs.find? (fun x => x.id == j) := by
  induction bs with
  | nil => rfl
  | cons c bs ih =>
    unfold updateOne
    by_cases hc : (c.id == d.id) = true
    · have hcd : c.id = d.id := by simpa using hc
      have h1 : (d.id == j) = false := by simpa using hj
      have h2 : (c.id == j) = false := by rw [hcd]; exact h1
      simp [hc, List.find?_cons, h1, h2]
    · simp only [hc, Bool.false_eq_true, if_false, List.find?_cons]
      rw [ih]

theorem mem_deleteOne (id : ObjectId) (x : Booking) (bs : List Booking)
    (h : x ∈ deleteOne id bs) : x ∈ bs := by
  induction bs with
  | nil => simp [deleteOne] at h
  | cons b bs ih =>
    unfold deleteOne at h
    by_cases hb : (b.id == id) = true
    · simp only [hb, if_true] at h
      exact List.mem_cons_of_mem _ h
    · simp only [hb, Bool.false_eq_true, if_false, List.mem_cons] at h
      rcases h with h | h
      · rw [h]
        exact List.mem_cons_self _ _
      · exact List.mem_cons_of_mem _ (ih h)

theorem deleteOne_sublist (id : ObjectId) (bs : List Booking) :
    List.Sublist (deleteOne id bs) bs := by
  induction bs with
  | nil => exact List.Sublist.slnil
  | cons b bs ih =>
    unfold deleteOne
    by_cases hb : (b.id == id) = true
    · simp only [hb, if_true]
      exact List.sublist_cons_self b bs
    · simp only [hb, Bool.false_eq_true, if_false]
      exact List.Sublist.cons₂ b ih

theorem find_deleteOne_other (id j : ObjectId) (bs : List Booking) (hj : id ≠ j) :
    (deleteOne id bs).find? (fun x => x.id == j) = bs.find? (fun x => x.id == j) := by
  induction bs with
  | nil => rfl
  | cons c bs ih =>
    unfold deleteOne
    by_cases hc : (c.id == id) = true
    · have hcd : c.id = id := by simpa using hc
      have h2 : (c.id == j) = false := by rw [hcd]; simpa using hj
      simp [hc, List.find?_cons, h2]
    · simp only [hc, Bool.false_eq_true, if_false, List.find?_cons]
      rw [ih]

theorem find_deleteOne_self (id : ObjectId) (bs : List Booking)
    (hn : (bs.map Booking.id).Nodup) :
    (deleteOne id bs).find? (fun x => x.id == id) = none := by
  induction bs with
  | nil => rfl
  | cons c bs ih =>
    simp only [List.map_cons, List.nodup_cons] at hn
    unfold deleteOne
    by_cases hc : (c.id == id) = true
    · have hcd : c.id = id := by simpa using hc
      simp only [hc, if_true, List.find?_eq_none]
      intro x hx hxid
      apply hn.1
      have : x.id = c.id := by rw [hcd]; simpa using hxid
      rw [← this]
      exact List.mem_map_of_mem _ hx
    · simp only [hc, Bool.false_eq_true, if_false, List.find?_cons]
      exact ih hn.2

/-- The removal of the first document with the given id, when there is one, takes
exactly that document out of the list. -/
theorem deleteOne_split (id : ObjectId) (b : Booking) (bs : List Booking)
    (hf : bs.find? (fun x => x.id == id) = some b) :
    ∃ l1 l2, bs = l1 ++ b :: l2 ∧ deleteOne id bs = l1 ++ l2 := by
  induction bs with
  | nil => simp at hf
  | cons c bs ih =>
    unfold deleteOne
    by_cases hc : (c.id == id) = true
    · simp only [List.find?_cons, hc, Option.some.injEq] at hf
      exact ⟨[], bs, by simp [hf], by simp [hc]⟩
    · simp only [List.find?_cons, hc] at hf
      obtain ⟨l1, l2, e1, e2⟩ := ih hf
      refine ⟨c :: l1, l2, by simp [e1], ?_⟩
      simp only [hc, Bool.false_eq_true, if_false, List.cons_append]
      rw [e2]

theorem deleteOne_not_found (id : ObjectId) (bs : List Booking)
    (hf : bs.find? (fun x => x.id == id) = none) : deleteOne id bs = bs := by
  induction bs with
  | nil => rfl
  | cons c bs ih =>
    unfold deleteOne
    by_cases hc : (c.id == id) = true
    · simp [List.find?_cons, hc] at hf
    · simp only [List.find?_cons, hc] at hf
      simp only [hc, Bool.false_eq_true, if_false]
      rw [ih hf]

theorem find_append_of_found (j : ObjectId) (b x : Booking) (bs : List Booking)
    (hf : bs.find? (fun y => y.id == j) = some b) :
    (bs ++ [x]).find? (fun y => y.id == j) = some b := by
  rw [List.find?_append, hf]
  rfl

/-! ## What one request can do to the store -/

theorem getProfile_sameData (w : World) (s : Session) (id : ObjectId) :
    World.sameData w (getProfile w s id).world := by
  unfold getProfile User.findById Booking.find Notification.find World.sameData
  cases w.users.find? (fun u => u.id == id) <;> simp [World.log]

theorem getUserUpdates_sameData (w : World) (s : Session) (id : ObjectId) :
    World.sameData w (getUserUpdates w s id).world := by
  unfold getUserUpdates Booking.find Notification.find World.sameData
  simp [World.log]

theorem countDocuments_sameData (w : World) (st : Option String) :
    World.sameData w (Booking.countDocuments w st).2 := by
  unfold Booking.countDocuments World.sameData
  cases st <;> simp [World.log]

theorem aggregate_sameData (w : World) (st : Option String) (f : Booking → Int) :
    World.sameData w (Booking.aggregate w st f).2 := by
  unfold Booking.aggregate World.sameData
  simp [World.log]

theorem findAll_sameData (w : World) : World.sameData w (Booking.findAll w).2 := by
  unfold Booking.findAll World.sameData
  simp [World.log]

theorem sameData_trans (a b c : World) (h1 : World.sameData a b) (h2 : World.sameData b c) :
    World.sameData a c := by
  unfold World.sameData at *
  obtain ⟨a1, a2, a3, a4⟩ := h1
  obtain ⟨b1, b2, b3, b4⟩ := h2
  exact ⟨b1.trans a1, b2.trans a2, b3.trans a3, b4.trans a4⟩

theorem sameData_refl (a : World) : World.sameData a a := ⟨rfl, rfl, rfl, rfl⟩

theorem adminDashboard_sameData (w : World) (s : Session) :
    World.sameData w (adminDashboard w s).world := by
  cases ha : s.admin with
  | none =>
    unfold adminDashboard
    rw [requireAdmin_of_not_admin w s _ ha]
    exact sameData_refl w
  | some a =>
    have ha2 : s.admin.isSome = true := by simp [ha]
    unfold adminDashboard
    rw [requireAdmin_of_admin w s _ ha2]
    exact sameData_trans _ _ _ (countDocuments_sameData _ _)
      (sameData_trans _ _ _ (countDocuments_sameData _ _)
        (sameData_trans _ _ _ (countDocuments_sameData _ _)
          (sameData_trans _ _ _ (countDocuments_sameData _ _)
            (sameData_trans _ _ _ (aggregate_sameData _ _ _)
              (sameData_trans _ _ _ (aggregate_sameData _ _ _) (findAll_sameData _))))))

theorem adminAnalytics_sameData (w : World) (s : Session) :
    World.sameData w (adminAnalytics w s).world := by
  cases ha : s.admin with
  | none =>
    unfold adminAnalytics
    rw [requireAdmin_of_not_admin w s _ ha]
    exact sameData_refl w
  | some a =>
    have ha2 : s.admin.isSome = true := by simp [ha]
    unfold adminAnalytics
    rw [requireAdmin_of_admin w s _ ha2]
    simp [World.sameData, Booking.countDocuments, Booking.aggregate, World.log]

theorem adminHistory_sameData (w : World) (s : Session) :
    World.sameData w (adminHistory w s).world := by
  cases ha : s.admin with
  | none =>
    unfold adminHistory
    rw [requireAdmin_of_not_admin w s _ ha]
    exact sameData_refl w
  | some a =>
    have ha2 : s.admin.isSome = true := by simp [ha]
    unfold adminHistory
    rw [requireAdmin_of_admin w s _ ha2]
    exact findAll_sameData w

theorem adminUsers_sameData (w : World) (s : Session) :
    World.sameData w (adminUsers w s).world := by
  cases ha : s.admin with
  | none =>
    unfold adminUsers
    rw [requireAdmin_of_not_admin w s _ ha]
    exact sameData_refl w
  | some a =>
    have ha2 : s.admin.isSome = true := by simp [ha]
    unfold adminUsers
    rw [requireAdmin_of_admin w s _ ha2]
    simp [User.find, World.sameData, World.log]

theorem adminSettings_sameData (w : World) (s : Session) :
    World.sameData w (adminSettings w s).world := by
  unfold adminSettings requireAdmin
  cases s.admin <;> exact sameData_refl w

theorem adminGetLogin_sameData (w : World) (s : Session) :
    World.sameData w (adminGetLogin w s).world := by
  unfold adminGetLogin
  cases s.admin <;> exact sameData_refl w

theorem adminPostLogin_sameData (w : World) (s : Session) (u p : Option String) :
    World.sameData w (adminPostLogin w s u p).world := by
  unfold adminPostLogin
  split <;> exact sameData_refl w

theorem LedgerChange.of_sameData (env : Env) (w : World) (s : Session) (req : Request)
    (w2 : World) (h : World.sameData w w2) : LedgerChange env w s req w2 :=
  LedgerChange.unchanged h.2.1 (le_of_eq h.2.2.2.symm)

theorem log_sameData (w : World) (a : Access) : World.sameData w (w.log a) :=
  ⟨rfl, rfl, rfl, rfl⟩

theorem save_nextId (env : Env) (w : World) (doc : Booking) (isNew : Bool)
    (saved : Booking) (w2 : World)
    (h : Booking.save env w doc isNew = Except.ok (saved, w2)) :
    w2.nextId = if isNew then w.nextId + 1 else w.nextId := by
  obtain ⟨_, he⟩ := (save_ok_iff env w doc isNew saved w2).1 h
  obtain ⟨_, _, _, q4⟩ := preSaveName_world w (preSaveStatus (preSavePrice doc))
  cases isNew
  · simp only [Bool.false_eq_true, if_false, Prod.mk.injEq] at he
    rw [he.2]
    simp [World.log, q4]
  · simp only [if_true, Prod.mk.injEq] at he
    rw [he.2]
    simp [World.log, q4]

theorem submit_ledgerChange (env : Env) (w : World) (s : Session) (body : SubmitBody) :
    LedgerChange env w s (Request.postBookingSubmit body) (postBookingSubmit env w s body).world := by
  by_cases hv : validate env
      (Booking.new w body.userId body.room body.checkin body.checkout body.guests) = true
  · by_cases hm : missingDetails body = true
    · apply LedgerChange.of_sameData
      unfold postBookingSubmit
      simp only [hm, if_true]
      exact sameData_refl w
    · obtain ⟨saved, w1, hs⟩ := save_ok_of_validate env w _ true hv
      have hm2 : missingDetails body = false := by simpa using hm
      have hn := save_nextId env w _ true saved w1 hs
      refine LedgerChange.inserted body _ saved w1 rfl rfl rfl hs ?_ ?_
      · rw [submit_of_save_ok env w s body saved w1 hm2 hs]
        simp [Notification.create, (save_world env w _ true saved w1 hs).2.2]
      · rw [submit_of_save_ok env w s body saved w1 hm2 hs]
        simp [Notification.create, hn]
        exact Nat.lt_succ_of_lt (Nat.lt_succ_self _)
  · apply LedgerChange.of_sameData
    have hv2 : validate env
        (Booking.new w body.userId body.room body.checkin body.checkout body.guests)
          = false := by simpa using hv
    rw [(submit_of_not_validate env w s body hv2).1]
    exact sameData_refl w

theorem accept_ledgerChange (env : Env) (w : World) (s : Session) (id : ObjectId) :
    LedgerChange env w s (Request.adminAccept id) (adminAccept env w s id).world := by
  cases ha : s.admin with
  | none =>
    apply LedgerChange.of_sameData
    unfold adminAccept
    rw [requireAdmin_of_not_admin w s _ ha]
    exact sameData_refl w
  | some a =>
    have ha2 : s.admin.isSome = true := by simp [ha]
    cases hf : w.bookings.find? (fun b => b.id == id) with
    | none =>
      apply LedgerChange.of_sameData
      rw [accept_not_found env w s id ha2 hf]
      exact log_sameData w _
    | some b =>
      cases hs : Booking.save env (w.log Access.readBookings)
          { b with status := some "accepted" } false with
      | error e =>
        apply LedgerChange.of_sameData
        rw [accept_of_save_error env w s id b e ha2 hf hs]
        exact log_sameData w _
      | ok r =>
        obtain ⟨saved, w1⟩ := r
        have hn := save_nextId env _ _ false saved w1 hs
        refine LedgerChange.updated id b saved "accepted" _ w1 ha2 hf (Or.inl ⟨rfl, rfl⟩)
          hs ?_ ?_
        · rw [accept_of_save_ok env w s id b saved w1 ha2 hf hs]
          simp [Notification.create, (save_world env _ _ false saved w1 hs).2.2, World.log]
        · rw [accept_of_save_ok env w s id b saved w1 ha2 hf hs]
          simp [Notification.create, hn, World.log]

theorem decline_ledgerChange (env : Env) (w : World) (s : Session) (id : ObjectId) :
    LedgerChange env w s (Request.adminDecline id) (adminDecline env w s id).world := by
  cases ha : s.admin with
  | none =>
    apply LedgerChange.of_sameData
    unfold adminDecline
    rw [requireAdmin_of_not_admin w s _ ha]
    exact sameData_refl w
  | some a =>
    have ha2 : s.admin.isSome = true := by simp [ha]
    cases hf : w.bookings.find? (fun b => b.id == id) with
    | none =>
      apply LedgerChange.of_sameData
      rw [decline_not_found env w s id ha2 hf]
      exact log_sameData w _
    | some b =>
      cases hs : Booking.save env (w.log Access.readBookings)
          { b with status := some "declined" } false with
      | error e =>
        apply LedgerChange.of_sameData
        rw [decline_of_save_error env w s id b e ha2 hf hs]
        exact log_sameData w _
      | ok r =>
        obtain ⟨saved, w1⟩ := r
        have hn := save_nextId env _ _ false saved w1 hs
        refine LedgerChange.updated id b saved "declined" _ w1 ha2 hf (Or.inr ⟨rfl, rfl⟩)
          hs ?_ ?_
        · rw [decline_of_save_ok env w s id b saved w1 ha2 hf hs]
          simp [Notification.create, (save_world env _ _ false saved w1 hs).2.2, World.log]
        · rw [decline_of_save_ok env w s id b saved w1 ha2 hf hs]
          simp [Notification.create, hn, World.log]

theorem cancel_world (env : Env) (w : World) (s : Session) (id : ObjectId) :
    (postBookingCancel env w s id).world =
      match w.bookings.find? (fun b => b.id == id) with
      | none => w.log Access.readBookings
      | some b =>
        Notification.create env (Booking.findByIdAndDelete (w.log Access.readBookings) id)
          b.userId ("Your booking for " ++ interp b.room ++ " has been cancelled.") "booking" := by
  unfold postBookingCancel Booking.findById
  cases hf : w.bookings.find? (fun b => b.id == id) <;> simp

theorem cancel_ledgerChange (env : Env) (w : World) (s : Session) (id : ObjectId) :
    LedgerChange env w s (Request.postBookingCancel id) (postBookingCancel env w s id).world := by
  rw [cancel_world]
  cases hf : w.bookings.find? (fun b => b.id == id) with
  | none => exact LedgerChange.of_sameData _ _ _ _ _ (log_sameData w _)
  | some b =>
    refine LedgerChange.deleted id (Or.inl rfl) rfl ?_
    simp [Notification.create, Booking.findByIdAndDelete, World.log]

theorem delete_ledgerChange (env : Env) (w : World) (s : Session) (id : ObjectId) :
    LedgerChange env w s (Request.adminDelete id) (adminDelete w s id).world := by
  cases ha : s.admin with
  | none =>
    apply LedgerChange.of_sameData
    unfold adminDelete
    rw [requireAdmin_of_not_admin w s _ ha]
    exact sameData_refl w
  | some a =>
    have ha2 : s.admin.isSome = true := by simp [ha]
    unfold adminDelete
    rw [requireAdmin_of_admin w s _ ha2]
    exact LedgerChange.deleted id (Or.inr ⟨rfl, ha2⟩) rfl (le_refl _)

/-- Every request changes the ledger in one of the four ways of `LedgerChange`. -/
theorem handle_ledgerChange (env : Env) (w : World) (s : Session) (req : Request) :
    LedgerChange env w s req (handle env w s req).world := by
  cases req with
  | getProfile id => exact LedgerChange.of_sameData _ _ _ _ _ (getProfile_sameData w s id)
  | postBookingSubmit body => exact submit_ledgerChange env w s body
  | getUserUpdates id => exact LedgerChange.of_sameData _ _ _ _ _ (getUserUpdates_sameData w s id)
  | postBookingCancel id => exact cancel_ledgerChange env w s id
  | adminGetLogin => exact LedgerChange.of_sameData _ _ _ _ _ (adminGetLogin_sameData w s)
  | adminPostLogin u p => exact LedgerChange.of_sameData _ _ _ _ _ (adminPostLogin_sameData w s u p)
  | adminLogout => exact LedgerChange.of_sameData _ _ _ _ _ (sameData_refl w)
  | adminRoot => exact LedgerChange.of_sameData _ _ _ _ _ (sameData_refl w)
  | adminDashboard => exact LedgerChange.of_sameData _ _ _ _ _ (adminDashboard_sameData w s)
  | adminAnalytics => exact LedgerChange.of_sameData _ _ _ _ _ (adminAnalytics_sameData w s)
  | adminHistory => exact LedgerChange.of_sameData _ _ _ _ _ (adminHistory_sameData w s)
  | adminUsers => exact LedgerChange.of_sameData _ _ _ _ _ (adminUsers_sameData w s)
  | adminSettings => exact LedgerChange.of_sameData _ _ _ _ _ (adminSettings_sameData w s)
  | adminAccept id => exact accept_ledgerChange env w s id
  | adminDecline id => exact decline_ledgerChange env w s id
  | adminDelete id => exact delete_ledgerChange env w s id

/-! ## Invariants of the reachable stores -/

theorem save_priceOk (env : Env) (w : World) (doc : Booking) (isNew : Bool)
    (saved : Booking) (w2 : World)
    (h : Booking.save env w doc isNew = Except.ok (saved, w2)) : priceOk saved := by
  obtain ⟨_, _, _, f3, f4, f5, _, _, f8, f9⟩ := save_fields env w doc isNew saved w2 h
  unfold priceOk
  rw [f9, f8, f3, nights_congr saved doc f4 f5]
  exact ⟨rfl, rfl⟩

theorem ledgerOk_step (tz now : Int) (w : World) (s : Session) (w2 : World)
    (req : Request)
    (h : LedgerOk tz w) (hc : LedgerChange ⟨now, tz⟩ w s req w2) : LedgerOk tz w2 := by
  obtain ⟨h1, h2, h3, h4⟩ := h
  cases hc with
  | unchanged e hn =>
    refine ⟨by rw [e]; exact h1, ?_, by rw [e]; exact h3, by rw [e]; exact h4⟩
    intro b hb
    rw [e] at hb
    exact Nat.lt_of_lt_of_le (h2 b hb) hn
  | inserted body doc saved w1 hreq hid hst hs e hn =>
    have hsid : saved.id = w.nextId := by
      rw [(save_fields _ w doc true saved w1 hs).2.1, hid]
    refine ⟨?_, ?_, ?_, ?_⟩
    · rw [e, List.map_append, List.nodup_append]
      refine ⟨h1, List.nodup_singleton _, ?_⟩
      intro a ha1 ha2
      simp only [List.map_cons, List.map_nil, List.mem_singleton] at ha2
      obtain ⟨b, hb, hba⟩ := List.mem_map.1 ha1
      have hlt := h2 b hb
      rw [hba, ha2, hsid] at hlt
      exact Nat.lt_irrefl _ hlt
    · intro b hb
      rw [e, List.mem_append, List.mem_singleton] at hb
      rcases hb with hb | hb
      · exact Nat.lt_trans (h2 b hb) hn
      · rw [hb, hsid]
        exact hn
    · intro b hb
      rw [e, List.mem_append, List.mem_singleton] at hb
      rcases hb with hb | hb
      · exact h3 b hb
      · rw [hb]
        exact ⟨now, save_validate _ w doc true saved w1 hs⟩
    · intro b hb
      rw [e, List.mem_append, List.mem_singleton] at hb
      rcases hb with hb | hb
      · exact h4 b hb
      · rw [hb]
        exact save_priceOk _ w doc true saved w1 hs
  | updated id b saved st w0 w1 ha hf hst hs e hn =>
    have hbm : b ∈ w.bookings := List.mem_of_find?_eq_some hf
    have hsid : saved.id = b.id := (save_fields _ w0 _ false saved w1 hs).2.1
    refine ⟨?_, ?_, ?_, ?_⟩
    · rw [e, map_id_updateOne]
      exact h1
    · intro x hx
      rw [e] at hx
      rcases mem_updateOne saved x w.bookings hx with hx | hx
      · rw [hx, hsid]
        exact Nat.lt_of_lt_of_le (h2 b hbm) hn
      · exact Nat.lt_of_lt_of_le (h2 x hx) hn
    · intro x hx
      rw [e] at hx
      rcases mem_updateOne saved x w.bookings hx with hx | hx
      · rw [hx]
        exact ⟨now, save_validate _ w0 _ false saved w1 hs⟩
      · exact h3 x hx
    · intro x hx
      rw [e] at hx
      rcases mem_updateOne saved x w.bookings hx with hx | hx
      · rw [hx]
        exact save_priceOk _ w0 _ false saved w1 hs
      · exact h4 x hx
  | deleted id hreq e hn =>
    refine ⟨?_, ?_, ?_, ?_⟩
    · rw [e]
      exact List.Nodup.sublist (List.Sublist.map _ (deleteOne_sublist id w.bookings)) h1
    · intro x hx
      rw [e] at hx
      exact Nat.lt_of_lt_of_le (h2 x (mem_deleteOne id x _ hx)) hn
    · intro x hx
      rw [e] at hx
      exact h3 x (mem_deleteOne id x _ hx)
    · intro x hx
      rw [e] at hx
      exact h4 x (mem_deleteOne id x _ hx)

/-- Every reachable store has a well-formed ledger. -/
theorem reachable_ledgerOk (tz : Int) (w : World) (h : Reachable tz w) : LedgerOk tz w := by
  induction h with
  | init users nextId =>
    refine ⟨?_, ?_, ?_, ?_⟩ <;> simp [World.initial]
  | step now w s req _ ih =>
    exact ledgerOk_step tz now w s _ req ih (handle_ledgerChange ⟨now, tz⟩ w s req)

/-! ## Accept and decline on a stored booking -/

theorem validate_with_status (env : Env) (b : Booking) (st : String)
    (hst : st ∈ statusEnum) (hv : validate env b = true) :
    validate env { b with status := some st } = true := by
  obtain ⟨_, _, _, _, _, h6⟩ := validate_parts env b hv
  rw [validate_congr env { b with status := some st } b rfl rfl rfl rfl rfl
    (by rw [h6]; exact validStatus_of_enum b st hst)]
  exact hv

theorem not_validate_with_status (env : Env) (b : Booking) (st : String)
    (hc : validCheckin env b = false) :
    validate env { b with status := some st } = false := by
  have h : validCheckin env { b with status := some st } = false := hc
  unfold validate
  simp [h]

theorem find_id (id : ObjectId) (b : Booking) (bs : List Booking)
    (hf : bs.find? (fun x => x.id == id) = some b) : b.id = id := by
  have h := List.find?_some hf
  simpa using h

theorem accept_valid (env : Env) (w : World) (s : Session) (id : ObjectId) (b : Booking)
    (ha : s.admin.isSome = true) (hf : w.bookings.find? (fun x => x.id == id) = some b)
    (hv : validate env b = true) :
    ∃ saved n w2,
      adminAccept env w s id = ⟨Response.redirect "/admin/dashboard",
        { s with message := some ⟨"success", "Booking accepted successfully!"⟩ }, w2⟩
      ∧ w2.bookings = updateOne saved w.bookings
      ∧ w2.bookings.find? (fun x => x.id == id) = some saved
      ∧ w2.notifications = w.notifications ++ [n] ∧ w2.users = w.users
      ∧ saved.status = some "accepted" ∧ saved.id = b.id ∧ saved.userId = b.userId
      ∧ saved.room = b.room ∧ saved.checkin = b.checkin ∧ saved.checkout = b.checkout
      ∧ saved.guests = b.guests ∧ n.userId = b.userId
      ∧ n.message = "✅ Your booking for " ++ interp b.room ++ " has been accepted!" := by
  have hv2 := validate_with_status env b "accepted" (by decide) hv
  obtain ⟨saved, w1, hs⟩ := save_ok_of_validate env (w.log Access.readBookings) _ false hv2
  obtain ⟨_, f1, f2, f3, f4, f5, f6, f7, _, _⟩ := save_fields env _ _ false saved w1 hs
  obtain ⟨u1, u2, u3⟩ := save_world env _ _ false saved w1 hs
  have hid : saved.id = id := by rw [f1]; exact find_id id b _ hf
  have hbk : (Notification.create env w1 saved.userId
      ("✅ Your booking for " ++ interp saved.room ++ " has been accepted!")
      "booking").bookings = updateOne saved w.bookings := by
    simp [Notification.create, u3, World.log]
  refine ⟨saved, Notification.mk w1.nextId saved.userId
      ("✅ Your booking for " ++ interp saved.room ++ " has been accepted!") "booking"
      env.now false, _, accept_of_save_ok env w s id b saved w1 ha hf hs, hbk, ?_, ?_, ?_,
      ?_, f1, f2, f3, f4, f5, f6, f2, ?_⟩
  · rw [hbk, ← hid]
    rw [← hid] at hf
    exact find_updateOne_self saved b _ hf
  · simp [Notification.create, u2, World.log]
  · simp [Notification.create, u1, World.log]
  · rw [f7]
    rfl
  · show "✅ Your booking for " ++ interp saved.room ++ " has been accepted!" = _
    rw [f3]

theorem decline_valid (env : Env) (w : World) (s : Session) (id : ObjectId) (b : Booking)
    (ha : s.admin.isSome = true) (hf : w.bookings.find? (fun x => x.id == id) = some b)
    (hv : validate env b = true) :
    ∃ saved n w2,
      adminDecline env w s id = ⟨Response.redirect "/admin/dashboard",
        { s with message := some ⟨"success", "Booking declined successfully!"⟩ }, w2⟩
      ∧ w2.bookings = updateOne saved w.bookings
      ∧ w2.bookings.find? (fun x => x.id == id) = some saved
      ∧ w2.notifications = w.notifications ++ [n] ∧ w2.users = w.users
      ∧ saved.status = some "declined" ∧ saved.id = b.id ∧ saved.userId = b.userId
      ∧ saved.room = b.room ∧ saved.checkin = b.checkin ∧ saved.checkout = b.checkout
      ∧ saved.guests = b.guests ∧ n.userId = b.userId
      ∧ n.message = "❌ Your booking for " ++ interp b.room ++ " has been declined." := by
  have hv2 := validate_with_status env b "declined" (by decide) hv
  obtain ⟨saved, w1, hs⟩ := save_ok_of_validate env (w.log Access.readBookings) _ false hv2
  obtain ⟨_, f1, f2, f3, f4, f5, f6, f7, _, _⟩ := save_fields env _ _ false saved w1 hs
  obtain ⟨u1, u2, u3⟩ := save_world env _ _ false saved w1 hs
  have hid : saved.id = id := by rw [f1]; exact find_id id b _ hf
  have hbk : (Notification.create env w1 saved.userId
      ("❌ Your booking for " ++ interp saved.room ++ " has been declined.")
      "booking").bookings = updateOne saved w.bookings := by
    simp [Notification.create, u3, World.log]
  refine ⟨saved, Notification.mk w1.nextId saved.userId
      ("❌ Your booking for " ++ interp saved.room ++ " has been declined.") "booking"
      env.now false, _, decline_of_save_ok env w s id b saved w1 ha hf hs, hbk, ?_, ?_, ?_,
      ?_, f1, f2, f3, f4, f5, f6, f2, ?_⟩
  · rw [hbk, ← hid]
    rw [← hid] at hf
    exact find_updateOne_self saved b _ hf
  · simp [Notification.create, u2, World.log]
  · simp [Notification.create, u1, World.log]
  · rw [f7]
    rfl
  · show "❌ Your booking for " ++ interp saved.room ++ " has been declined." = _
    rw [f3]

theorem accept_invalid (env : Env) (w : World) (s : Session) (id : ObjectId) (b : Booking)
    (ha : s.admin.isSome = true) (hf : w.bookings.find? (fun x => x.id == id) = some b)
    (hc : validCheckin env b = false) :
    adminAccept env w s id = ⟨Response.redirect "/admin/dashboard",
      { s with message := some ⟨"error", "Error accepting booking."⟩ },
      w.log Access.readBookings⟩ :=
  accept_of_save_error env w s id b _ ha hf
    (save_error_of_not_validate env _ _ false (not_validate_with_status env b "accepted" hc))

theorem decline_invalid (env : Env) (w : World) (s : Session) (id : ObjectId) (b : Booking)
    (ha : s.admin.isSome = true) (hf : w.bookings.find? (fun x => x.id == id) = some b)
    (hc : validCheckin env b = false) :
    adminDecline env w s id = ⟨Response.redirect "/admin/dashboard",
      { s with message := some ⟨"error", "Error declining booking."⟩ },
      w.log Access.readBookings⟩ :=
  decline_of_save_error env w s id b _ ha hf
    (save_error_of_not_validate env _ _ false (not_validate_with_status env b "declined" hc))

/-- In a reachable store, a stored booking whose check-in day has not passed passes the
whole validation again. -/
theorem reachable_validate (tz now : Int) (w : World) (b : Booking) (hr : Reachable tz w)
    (hb : b ∈ w.bookings) (hc : validCheckin ⟨now, tz⟩ b = true) :
    validate ⟨now, tz⟩ b = true := by
  obtain ⟨now0, h0⟩ := (reachable_ledgerOk tz w hr).2.2.1 b hb
  exact validate_at_other_time tz now0 now b h0 hc

/-! ## The status of one booking across one request -/

theorem statusAfterHook_enum (st : String) (h : st ∈ statusEnum) :
    statusAfterHook (some st) = some st := by
  simp only [statusEnum, List.mem_cons, List.mem_singleton, List.not_mem_nil, or_false] at h
  rcases h with rfl | rfl | rfl <;> rfl

/-- The fate of the booking with a given id across one request, in a well-formed ledger:
it is removed (by cancel, or by delete with the admin scope), or it is stored unchanged,
or it is replaced by a copy with the same id and status accepted (accept with the admin
scope) or declined (decline with the admin scope). -/
theorem status_step (tz now : Int) (w : World) (s : Session) (req : Request)
    (id : ObjectId) (b : Booking) (hok : LedgerOk tz w)
    (hf : w.bookings.find? (fun x => x.id == id) = some b) :
    ((handle ⟨now, tz⟩ w s req).world.bookings.find? (fun x => x.id == id) = none
      ∧ (req = Request.postBookingCancel id
        ∨ (req = Request.adminDelete id ∧ s.admin.isSome = true)))
    ∨ (handle ⟨now, tz⟩ w s req).world.bookings.find? (fun x => x.id == id) = some b
    ∨ (∃ b2, (handle ⟨now, tz⟩ w s req).world.bookings.find? (fun x => x.id == id) = some b2
        ∧ s.admin.isSome = true
        ∧ ((req = Request.adminAccept id ∧ b2.status = some "accepted")
          ∨ (req = Request.adminDecline id ∧ b2.status = some "declined"))) := by
  have hc := handle_ledgerChange ⟨now, tz⟩ w s req
  cases hc with
  | unchanged e hn =>
    right
    left
    rw [e]
    exact hf
  | inserted body doc saved w1 hreq hid hst hs e hn =>
    right
    left
    rw [e]
    exact find_append_of_found id b saved _ hf
  | updated id2 b0 saved st w0 w1 ha hf0 hreq hs e hn =>
    obtain ⟨_, f1, _, _, _, _, _, f7, _, _⟩ := save_fields _ w0 _ false saved w1 hs
    have hsid : saved.id = id2 := by
      rw [f1]
      exact find_id id2 b0 _ hf0
    by_cases hid : id2 = id
    · right
      right
      subst hid
      refine ⟨saved, ?_, ha, ?_⟩
      · rw [e]
        rw [← hsid] at hf ⊢
        exact find_updateOne_self saved b _ hf
      · rcases hreq with ⟨h1, h2⟩ | ⟨h1, h2⟩
        · left
          refine ⟨h1, ?_⟩
          rw [f7, h2]
          rfl
        · right
          refine ⟨h1, ?_⟩
          rw [f7, h2]
          rfl
    · right
      left
      rw [e, find_updateOne_other saved id _ (by rw [hsid]; exact hid)]
      exact hf
  | deleted id2 hreq e hn =>
    by_cases hid : id2 = id
    · left
      subst hid
      refine ⟨?_, hreq⟩
      rw [e]
      exact find_deleteOne_self id2 _ hok.1
    · right
      left
      rw [e, find_deleteOne_other id2 id _ hid]
      exact hf

/-- The fate of an id that is not in the ledger across one request: it stays absent, or
it is the id of the booking that a submission has just inserted, with status pending. -/
theorem status_step_absent (env : Env) (w : World) (s : Session) (req : Request)
    (id : ObjectId) (hf : w.bookings.find? (fun x => x.id == id) = none) :
    (handle env w s req).world.bookings.find? (fun x => x.id == id) = none
    ∨ (∃ b2, (handle env w s req).world.bookings.find? (fun x => x.id == id) = some b2
        ∧ b2.status = some "pending") := by
  have hc := handle_ledgerChange env w s req
  cases hc with
  | unchanged e hn =>
    left
    rw [e]
    exact hf
  | inserted body doc saved w1 hreq hid hst hs e hn =>
    obtain ⟨_, _, _, _, _, _, _, f7, _, _⟩ := save_fields _ w _ true saved w1 hs
    rw [e, List.find?_append, hf]
    by_cases hsid : (saved.id == id) = true
    · right
      refine ⟨saved, by simp [List.find?_cons, hsid], ?_⟩
      rw [f7, hst]
      rfl
    · left
      simp [List.find?_cons, hsid]
  | updated id2 b0 saved st w0 w1 ha hf0 hreq hs e hn =>
    left
    have hsid : saved.id = id2 := by
      rw [(save_fields _ w0 _ false saved w1 hs).2.1]
      exact find_id id2 b0 _ hf0
    have hid : id2 ≠ id := by
      intro h
      rw [h, hf] at hf0
      exact Option.noConfusion hf0
    rw [e, find_updateOne_other saved id _ (by rw [hsid]; exact hid)]
    exact hf
  | deleted id2 hreq e hn =>
    left
    by_cases hid : id2 = id
    · subst hid
      rw [e, deleteOne_not_found id2 _ hf]
      exact hf
    · rw [e, find_deleteOne_other id2 id _ hid]
      exact hf

/-! ## Facts about signup and login -/

theorem findOneByEmail_none (lc : String → String) (w : World) (email : String)
    (h : ∀ u ∈ w.users, u.email ≠ lc email) :
    (User.findOneByEmail lc w email).1 = none := by
  unfold User.findOneByEmail
  simp only [List.find?_eq_none]
  intro u hu
  simpa using h u hu

theorem findOneByEmail_some (lc : String → String) (w : World) (email : String)
    (h : ∃ u ∈ w.users, u.email = lc email) :
    ∃ u, (User.findOneByEmail lc w email).1 = some u := by
  unfold User.findOneByEmail
  cases hf : w.users.find? (fun u => u.email == lc email) with
  | some u => exact ⟨u, rfl⟩
  | none =>
    obtain ⟨u, hu, he⟩ := h
    rw [List.find?_eq_none] at hf
    exact absurd (by simpa using he) (hf u hu)

theorem signup_existing (bc : Bcrypt) (lc : String → String) (salt : String) (env : Env)
    (w : World) (s : Session)
    (fullname email password : String) (u : User)
    (h : (User.findOneByEmail lc w email).1 = some u) :
    postSignup bc lc salt env w s fullname email password =
      ⟨AuthResponse.render "signup"
        ⟨"Sign Up | Philmar Resort", some "Email already registered. Please login instead.",
          none⟩, s, w.log Access.readUsers⟩ := by
  simp only [postSignup, h]
  rfl

theorem signup_fresh (bc : Bcrypt) (lc : String → String) (salt : String) (env : Env)
    (w : World) (s : Session)
    (fullname email password : String)
    (hfresh : ∀ u ∈ w.users, u.email ≠ lc email)
    (hf : trimStr fullname ≠ "") (he : lc email ≠ "") (hp : password ≠ "") :
    postSignup bc lc salt env w s fullname email password =
      ⟨AuthResponse.render "login"
        ⟨"Login / Signup | Philmar Resort", none,
          some "Account created successfully! You can now login."⟩, s,
        World.mk
          (w.users ++ [User.mk w.nextId (trimStr fullname) none (lc email)
            (bc.hash password salt) none "/images/default-avatar.png" "user" env.now])
          w.bookings w.notifications (w.nextId + 1)
          (Access.writeUsers :: Access.readUsers :: w.trace)⟩ := by
  have hnone := findOneByEmail_none lc w email hfresh
  have hany : (w.users.any (fun c => c.email == lc email)) = false := by
    rw [List.any_eq_false]
    intro u hu
    simpa using hfresh u hu
  simp only [postSignup, hnone]
  simp [User.save, User.new, User.validate, User.preSave, User.findOneByEmail, World.log,
    hf, he, hp, hany, roleEnum]

theorem signup_users (bc : Bcrypt) (lc : String → String) (salt : String) (env : Env)
    (w : World) (s : Session)
    (fullname email password : String) :
    ((postSignup bc lc salt env w s fullname email password).world.users = w.users
      ∧ (postSignup bc lc salt env w s fullname email password).world.nextId = w.nextId)
    ∨ ((∀ u ∈ w.users, u.email ≠ lc email)
      ∧ (∃ u, (postSignup bc lc salt env w s fullname email password).world.users
            = w.users ++ [u]
          ∧ u.email = lc email ∧ u.id = w.nextId)
      ∧ (postSignup bc lc salt env w s fullname email password).world.nextId = w.nextId + 1) := by
  cases hfind : (User.findOneByEmail lc w email).1 with
  | some u =>
    left
    rw [signup_existing bc lc salt env w s fullname email password u hfind]
    exact ⟨rfl, rfl⟩
  | none =>
    have hfresh : ∀ u ∈ w.users, u.email ≠ lc email := by
      unfold User.findOneByEmail at hfind
      simp only [List.find?_eq_none] at hfind
      intro u hu
      simpa using hfind u hu
    by_cases hv : trimStr fullname ≠ "" ∧ lc email ≠ "" ∧ password ≠ ""
    · right
      rw [signup_fresh bc lc salt env w s fullname email password hfresh hv.1 hv.2.1 hv.2.2]
      exact ⟨hfresh, ⟨User.mk w.nextId (trimStr fullname) none (lc email)
        (bc.hash password salt) none "/images/default-avatar.png" "user" env.now,
        rfl, rfl, rfl⟩, rfl⟩
    · left
      have hval : User.validate (User.new lc env (User.findOneByEmail lc w email).2
          fullname email password).fields = false := by
        simp only [User.validate, User.new, Bool.and_eq_false_imp, decide_eq_true_eq,
          decide_eq_false_iff_not]
        intro h1 _
        simp only [Bool.and_eq_true, decide_eq_true_eq] at h1
        exact absurd ⟨h1.1.1, h1.1.2, h1.2⟩ hv
      simp only [postSignup, hfind, User.save, hval]
      exact ⟨rfl, rfl⟩

theorem login_world (bc : Bcrypt) (lc : String → String) (w : World) (s : Session)
    (username password : String) :
    (postLogin bc lc w s username password).world = w.log Access.readUsers := by
  unfold postLogin User.findOneByEmailOrUsername
  cases w.users.find? (fun u => u.email == lc username
      || u.username == some (trimStr username)) with
  | none => rfl
  | some u =>
    by_cases hm : User.comparePassword bc u password = true
    · simp [hm]
    · simp [hm]

/-! ## Facts about `updateProfile` and the user store -/

theorem applyProfile_frame (u : User) (data : ProfileData) :
    (applyProfile u data).id = u.id ∧ (applyProfile u data).email = u.email
    ∧ (applyProfile u data).username = u.username
    ∧ (applyProfile u data).password = u.password
    ∧ (applyProfile u data).role = u.role
    ∧ (applyProfile u data).createdAt = u.createdAt := by
  unfold applyProfile
  by_cases h1 : falsyStr data.fullname = true <;> by_cases h2 : falsyStr data.phone = true
    <;> by_cases h3 : falsyStr data.profileImage = true <;> simp [h1, h2, h3]

theorem applyProfile_fields (u : User) (data : ProfileData) :
    (applyProfile u data).fullname
        = (if falsyStr data.fullname then u.fullname else trimStr (data.fullname.getD ""))
    ∧ (applyProfile u data).phone
        = (if falsyStr data.phone then u.phone else some (trimStr (data.phone.getD "")))
    ∧ (applyProfile u data).profileImage
        = (if falsyStr data.profileImage then u.profileImage
            else data.profileImage.getD "") := by
  unfold applyProfile
  by_cases h1 : falsyStr data.fullname = true <;> by_cases h2 : falsyStr data.phone = true
    <;> by_cases h3 : falsyStr data.profileImage = true <;> simp [h1, h2, h3]

theorem updateProfile_loaded (bc : Bcrypt) (salt : String) (w : World) (u : User)
    (data : ProfileData) :
    User.updateProfile bc salt w (User.loaded u) data =
      if User.validate (applyProfile u data) then
        Except.ok (applyProfile u data,
          { w.log Access.writeUsers with users := updateOneUser (applyProfile u data) w.users })
      else Except.error "User validation failed" := by
  unfold User.updateProfile
  have h : (if falsyStr data.profileImage then
        (if falsyStr data.phone then
          (if falsyStr data.fullname then (User.loaded u).fields
            else { (User.loaded u).fields with fullname := trimStr (data.fullname.getD "") })
          else { (if falsyStr data.fullname then (User.loaded u).fields
            else { (User.loaded u).fields with fullname := trimStr (data.fullname.getD "") })
              with phone := some (trimStr (data.phone.getD "")) })
      else { (if falsyStr data.phone then
          (if falsyStr data.fullname then (User.loaded u).fields
            else { (User.loaded u).fields with fullname := trimStr (data.fullname.getD "") })
          else { (if falsyStr data.fullname then (User.loaded u).fields
            else { (User.loaded u).fields with fullname := trimStr (data.fullname.getD "") })
              with phone := some (trimStr (data.phone.getD "")) })
          with profileImage := data.profileImage.getD "" }) = applyProfile u data := rfl
  simp only [h]
  unfold User.save
  by_cases hv : User.validate (applyProfile u data) = true
  · simp [hv, User.loaded, User.preSave, World.log]
  · simp [hv, User.loaded]

theorem mem_updateOneUser (d x : User) (l : List User) (h : x ∈ updateOneUser d l) :
    x = d ∨ x ∈ l := by
  induction l with
  | nil => simp [updateOneUser] at h
  | cons c cs ih =>
    unfold updateOneUser at h
    by_cases hc : (c.id == d.id) = true
    · simp only [hc, if_true, List.mem_cons] at h
      rcases h with h | h
      · exact Or.inl h
      · exact Or.inr (List.mem_cons_of_mem _ h)
    · simp only [hc, Bool.false_eq_true, if_false, List.mem_cons] at h
      rcases h with h | h
      · exact Or.inr (by rw [h]; exact List.mem_cons_self _ _)
      · rcases ih h with h2 | h2
        · exact Or.inl h2
        · exact Or.inr (List.mem_cons_of_mem _ h2)

theorem map_id_updateOneUser (d : User) (l : List User) :
    (updateOneUser d l).map User.id = l.map User.id := by
  induction l with
  | nil => rfl
  | cons c cs ih =>
    unfold updateOneUser
    by_cases hc : (c.id == d.id) = true
    · have hcd : c.id = d.id := by simpa using hc
      simp [hc, hcd]
    · simp [hc, ih]

theorem map_email_updateOneUser (d u : User) (l : List User)
    (hn : (l.map User.id).Nodup) (hu : u ∈ l) (h1 : d.id = u.id) (h2 : d.email = u.email) :
    (updateOneUser d l).map User.email = l.map User.email := by
  induction l with
  | nil => rfl
  | cons c cs ih =>
    unfold updateOneUser
    by_cases hc : (c.id == d.id) = true
    · have hcd : c.id = u.id := by
        rw [← h1]
        simpa using hc
      have hcu : c = u :=
        List.inj_on_of_nodup_map hn (List.mem_cons_self _ _) hu hcd
      subst hcu
      simp only [hc, if_true, List.map_cons, h2]
    · have hne : c.id ≠ d.id := by simpa using hc
      have hu2 : u ∈ cs := by
        rcases List.mem_cons.1 hu with h | h
        · rw [← h, ← h1] at hne
          exact absurd rfl hne
        · exact h
      simp only [List.map_cons, List.nodup_cons] at hn
      simp [hc, ih hn.2 hu2]

theorem handle_nextId (env : Env) (w : World) (s : Session) (req : Request) :
    w.nextId ≤ (handle env w s req).world.nextId := by
  cases handle_ledgerChange env w s req with
  | unchanged e hn => exact hn
  | inserted body doc saved w1 hreq hid hst hs e hn => exact Nat.le_of_lt hn
  | updated id b saved st w0 w1 ha hf hreq hs e hn => exact hn
  | deleted id hreq e hn => exact hn

/-- No request to the two routers writes to the user store. -/
theorem handle_users (env : Env) (w : World) (s : Session) (req : Request) :
    (handle env w s req).world.users = w.users := by
  cases req with
  | getProfile id => exact (getProfile_sameData w s id).1
  | postBookingSubmit body =>
    show (postBookingSubmit env w s body).world.users = w.users
    by_cases hv : validate env
        (Booking.new w body.userId body.room body.checkin body.checkout body.guests) = true
    · by_cases hm : missingDetails body = true
      · unfold postBookingSubmit
        simp [hm]
      · obtain ⟨saved, w1, hs⟩ := save_ok_of_validate env w _ true hv
        have hm2 : missingDetails body = false := by simpa using hm
        rw [submit_of_save_ok env w s body saved w1 hm2 hs]
        simp [Notification.create, (save_world env w _ true saved w1 hs).1]
    · have hv2 : validate env
          (Booking.new w body.userId body.room body.checkin body.checkout body.guests)
            = false := by simpa using hv
      rw [(submit_of_not_validate env w s body hv2).1]
  | getUserUpdates id => exact (getUserUpdates_sameData w s id).1
  | postBookingCancel id =>
    show (postBookingCancel env w s id).world.users = w.users
    rw [cancel_world]
    cases w.bookings.find? (fun b => b.id == id) <;>
      simp [Notification.create, Booking.findByIdAndDelete, World.log]
  | adminGetLogin => exact (adminGetLogin_sameData w s).1
  | adminPostLogin u p => exact (adminPostLogin_sameData w s u p).1
  | adminLogout => rfl
  | adminRoot => rfl
  | adminDashboard => exact (adminDashboard_sameData w s).1
  | adminAnalytics => exact (adminAnalytics_sameData w s).1
  | adminHistory => exact (adminHistory_sameData w s).1
  | adminUsers => exact (adminUsers_sameData w s).1
  | adminSettings => exact (adminSettings_sameData w s).1
  | adminAccept id =>
    show (adminAccept env w s id).world.users = w.users
    cases ha : s.admin with
    | none =>
      unfold adminAccept
      rw [requireAdmin_of_not_admin w s _ ha]
    | some a =>
      have ha2 : s.admin.isSome = true := by simp [ha]
      cases hf : w.bookings.find? (fun b => b.id == id) with
      | none => rw [accept_not_found env w s id ha2 hf]; rfl
      | some b =>
        cases hs : Booking.save env (w.log Access.readBookings)
            { b with status := some "accepted" } false with
        | error e => rw [accept_of_save_error env w s id b e ha2 hf hs]; rfl
        | ok r =>
          obtain ⟨saved, w1⟩ := r
          rw [accept_of_save_ok env w s id b saved w1 ha2 hf hs]
          simp [Notification.create, (save_world env _ _ false saved w1 hs).1, World.log]
  | adminDecline id =>
    show (adminDecline env w s id).world.users = w.users
    cases ha : s.admin with
    | none =>
      unfold adminDecline
      rw [requireAdmin_of_not_admin w s _ ha]
    | some a =>
      have ha2 : s.admin.isSome = true := by simp [ha]
      cases hf : w.bookings.find? (fun b => b.id == id) with
      | none => rw [decline_not_found env w s id ha2 hf]; rfl
      | some b =>
        cases hs : Booking.save env (w.log Access.readBookings)
            { b with status := some "declined" } false with
        | error e => rw [decline_of_save_error env w s id b e ha2 hf hs]; rfl
        | ok r =>
          obtain ⟨saved, w1⟩ := r
          rw [decline_of_save_ok env w s id b saved w1 ha2 hf hs]
          simp [Notification.create, (save_world env _ _ false saved w1 hs).1, World.log]
  | adminDelete id =>
    show (adminDelete w s id).world.users = w.users
    unfold adminDelete requireAdmin
    cases s.admin <;> rfl

theorem usersOk_of_same (lc : String → String) (w w2 : World) (h : UsersOk lc w)
    (hu : w2.users = w.users) (hn : w.nextId ≤ w2.nextId) : UsersOk lc w2 := by
  obtain ⟨h1, h2, h3, h4⟩ := h
  unfold UsersOk
  rw [hu]
  exact ⟨h1, h2, fun u hx => Nat.lt_of_lt_of_le (h3 u hx) hn, h4⟩

/-- Every store reachable from a store without users has a well-formed user store. -/
theorem reachableApp_usersOk (bc : Bcrypt) (lc : String → String) (tz : Int) (w : World)
    (h : ReachableApp bc lc tz w) : UsersOk lc w := by
  induction h with
  | init nextId =>
    refine ⟨?_, ?_, ?_, ?_⟩ <;> simp [World.initial]
  | router now w s req _ ih =>
    exact usersOk_of_same lc w _ ih (handle_users _ w s req) (handle_nextId _ w s req)
  | signup salt now w s fullname email password _ ih =>
    rcases signup_users bc lc salt ⟨now, tz⟩ w s fullname email password with
      ⟨e1, e2⟩ | ⟨hfresh, ⟨u, e1, e2, e3⟩, e4⟩
    · exact usersOk_of_same lc w _ ih e1 (Nat.le_of_eq e2.symm)
    · obtain ⟨h1, h2, h3, h4⟩ := ih
      refine ⟨?_, ?_, ?_, ?_⟩
      · rw [e1, List.map_append, List.nodup_append]
        refine ⟨h1, List.nodup_singleton _, ?_⟩
        intro a ha1 ha2
        simp only [List.map_cons, List.map_nil, List.mem_singleton] at ha2
        obtain ⟨c, hc, hca⟩ := List.mem_map.1 ha1
        exact hfresh c hc (by rw [hca, ha2, e2])
      · rw [e1, List.map_append, List.nodup_append]
        refine ⟨h2, List.nodup_singleton _, ?_⟩
        intro a ha1 ha2
        simp only [List.map_cons, List.map_nil, List.mem_singleton] at ha2
        obtain ⟨c, hc, hca⟩ := List.mem_map.1 ha1
        have hlt := h3 c hc
        rw [hca, ha2, e3] at hlt
        exact Nat.lt_irrefl _ hlt
      · intro c hc
        rw [e1, List.mem_append, List.mem_singleton] at hc
        rw [e4]
        rcases hc with hc | hc
        · exact Nat.lt_succ_of_lt (h3 c hc)
        · rw [hc, e3]
          exact Nat.lt_succ_self _
      · intro c hc
        rw [e1, List.mem_append, List.mem_singleton] at hc
        rcases hc with hc | hc
        · exact h4 c hc
        · exact ⟨email, by rw [hc, e2]⟩
  | login w s username password _ ih =>
    rw [login_world]
    exact usersOk_of_same lc w _ ih rfl (Nat.le_refl _)
  | updateProfile salt w u data hu _ ih =>
    rw [updateProfile_loaded]
    by_cases hv : User.validate (applyProfile u data) = true
    · obtain ⟨f1, f2, _, _, _, _⟩ := applyProfile_frame u data
      obtain ⟨h1, h2, h3, h4⟩ := ih
      simp only [hv, if_true, worldAfter]
      refine ⟨?_, ?_, ?_, ?_⟩
      · show ((updateOneUser (applyProfile u data) w.users).map User.email).Nodup
        rw [map_email_updateOneUser _ u w.users h2 hu f1 f2]
        exact h1
      · show ((updateOneUser (applyProfile u data) w.users).map User.id).Nodup
        rw [map_id_updateOneUser]
        exact h2
      · intro c hc
        rcases mem_updateOneUser _ c w.users hc with hc | hc
        · rw [hc, f1]
          exact h3 u hu
        · exact h3 c hc
      · intro c hc
        rcases mem_updateOneUser _ c w.users hc with hc | hc
        · rw [hc, f2]
          exact h4 u hu
        · exact h4 c hc
    · simp only [hv, Bool.false_eq_true, if_false, worldAfter]
      exact ih

/-! ## Facts about the guest name and the number of nights -/

theorem preSaveStatus_name (doc : Booking) :
    (preSaveStatus doc).name = doc.name ∧ (preSaveStatus doc).userId = doc.userId := by
  unfold preSaveStatus
  cases hs : doc.status with
  | none => exact ⟨rfl, rfl⟩
  | some st => by_cases h : st = "" <;> simp [h]

theorem preSaveName_filled (w : World) (doc : Booking) (uid : ObjectId) (user : User)
    (hn : doc.name = "") (hu : doc.userId = some uid)
    (hf : w.users.find? (fun u => u.id == uid) = some user) (hfn : user.fullname ≠ "") :
    (preSaveName w doc).1.name = user.fullname := by
  unfold preSaveName User.findById
  simp [hn, hu, hf, hfn]

theorem preSaveName_kept (w : World) (doc : Booking) (hn : doc.name ≠ "") :
    (preSaveName w doc).1.name = doc.name := by
  unfold preSaveName
  cases doc.userId <;> simp [hn]

theorem save_name (env : Env) (w : World) (doc : Booking) (isNew : Bool)
    (saved : Booking) (w2 : World)
    (h : Booking.save env w doc isNew = Except.ok (saved, w2)) :
    saved.name = (preSaveName w (preSaveStatus (preSavePrice doc))).1.name := by
  obtain ⟨_, he⟩ := (save_ok_iff env w doc isNew saved w2).1 h
  cases isNew
  · simp only [Bool.false_eq_true, if_false, Prod.mk.injEq] at he
    rw [he.1]
    rfl
  · simp only [if_true, Prod.mk.injEq] at he
    rw [he.1]
    rfl

theorem nights_bounds (tz ci co : Int) (h : setHoursZero tz co > setHoursZero tz ci) :
    1 ≤ (setHoursZero tz co - setHoursZero tz ci) / msPerDay
    ∧ 1 ≤ -((-(co - ci)) / msPerDay)
    ∧ (-((-(co - ci)) / msPerDay) = (setHoursZero tz co - setHoursZero tz ci) / msPerDay
      ∨ -((-(co - ci)) / msPerDay)
          = (setHoursZero tz co - setHoursZero tz ci) / msPerDay + 1) := by
  unfold setHoursZero at h ⊢
  rw [msPerDay_eq] at h ⊢
  omega

/-! ## Validity of the stored users -/

theorem signup_users_valid (bc : Bcrypt) (lc : String → String) (salt : String) (env : Env)
    (w : World) (s : Session) (fullname email password : String)
    (hbc : ∀ p t : String, bc.hash p t ≠ "") :
    ∀ x ∈ (postSignup bc lc salt env w s fullname email password).world.users,
      x ∈ w.users ∨ User.validate x = true := by
  intro x hx
  cases hfind : (User.findOneByEmail lc w email).1 with
  | some u =>
    rw [signup_existing bc lc salt env w s fullname email password u hfind] at hx
    exact Or.inl hx
  | none =>
    have hfresh : ∀ u ∈ w.users, u.email ≠ lc email := by
      unfold User.findOneByEmail at hfind
      simp only [List.find?_eq_none] at hfind
      intro u hu
      simpa using hfind u hu
    by_cases hv : trimStr fullname ≠ "" ∧ lc email ≠ "" ∧ password ≠ ""
    · rw [signup_fresh bc lc salt env w s fullname email password hfresh hv.1 hv.2.1 hv.2.2]
        at hx
      rcases List.mem_append.1 hx with h | h
      · exact Or.inl h
      · right
        rw [List.mem_singleton.1 h]
        simp [User.validate, hv.1, hv.2.1, hbc, roleEnum]
    · left
      have hval : User.validate (User.new lc env (User.findOneByEmail lc w email).2
          fullname email password).fields = false := by
        simp only [User.validate, User.new, Bool.and_eq_false_imp, decide_eq_true_eq,
          decide_eq_false_iff_not]
        intro h1 _
        simp only [Bool.and_eq_true, decide_eq_true_eq] at h1
        exact absurd ⟨h1.1.1, h1.1.2, h1.2⟩ hv
      simp only [postSignup, hfind, User.save, hval] at hx
      exact hx

/-- Every user stored in a reachable store passes the schema validation, provided that
bcrypt hashes are never empty. -/
theorem reachableApp_usersValid (bc : Bcrypt) (lc : String → String) (tz : Int) (w : World)
    (hbc : ∀ p t : String, bc.hash p t ≠ "") (h : ReachableApp bc lc tz w) :
    ∀ u ∈ w.users, User.validate u = true := by
  induction h with
  | init nextId =>
    intro u hu
    simp [World.initial] at hu
  | router now w s req _ ih =>
    intro u hu
    rw [handle_users] at hu
    exact ih u hu
  | signup salt now w s fullname email password _ ih =>
    intro u hu
    rcases signup_users_valid bc lc salt ⟨now, tz⟩ w s fullname email password hbc u hu
      with h | h
    · exact ih u h
    · exact h
  | login w s username password _ ih =>
    intro u hu
    rw [login_world] at hu
    exact ih u hu
  | updateProfile salt w u0 data hu0 _ ih =>
    intro u hu
    rw [updateProfile_loaded] at hu
    by_cases hv : User.validate (applyProfile u0 data) = true
    · simp only [hv, if_true, worldAfter] at hu
      rcases mem_updateOneUser _ u w.users hu with h | h
      · rw [h]
        exact hv
      · exact ih u h
    · simp only [hv, Bool.false_eq_true, if_false, worldAfter] at hu
      exact ih u hu

theorem bcrypt0_hash_ne (p t : String) : bcrypt0.hash p t ≠ "" := by
  intro h
  have hl := congrArg String.length h
  simp only [bcrypt0, String.length_append] at hl
  have h1 : "$".length = 1 := by decide
  have h2 : "".length = 0 := by decide
  rw [h1, h2] at hl
  omega

theorem worldS_reachable : ReachableApp bcrypt0 lower0 env0.tzOffset worldS := by
  have h0 : ReachableApp bcrypt0 lower0 env0.tzOffset (World.initial [] 0) :=
    ReachableApp.init 0
  exact ReachableApp.signup "salt0" env0.now (World.initial [] 0) session0 "Ana Cruz"
    "Ana@Example.com" "secret" h0

theorem worldS_users : worldS.users = [userS] := by
  rfl

/-! ## Facts about the concrete data -/

theorem world2_eq :
    (handle env0 world0 session0 (Request.postBookingSubmit body0)).world = world2 := by
  rfl

theorem world2_reachable : Reachable env0.tzOffset world2 := by
  have h0 : Reachable env0.tzOffset world0 := Reachable.init [user0] 2
  exact Reachable.step env0.now world0 session0 (Request.postBookingSubmit body0) h0

/-! ## C1 -/

/-- C1. Every successful save of a booking (new or loaded) writes a document whose
pricePerNight is the rate of its room and whose totalPrice is pricePerNight times nights,
nights being the ceiling of (checkout - checkin) / 1 day; the written document is the one
appended to (or replaced in) the ledger; and any later successful save of a document with
the same room and dates - whatever its incoming price fields, status or other fields -
writes the same pricePerNight and totalPrice.  Consequently every booking stored in a
reachable ledger has price fields that agree with its room and dates. -/
theorem C1_save_recomputes_price (env : Env) (w : World) (doc : Booking) (isNew : Bool)
    (saved : Booking) (w2 : World)
    (h : Booking.save env w doc isNew = Except.ok (saved, w2)) :
    (∃ r ci co, saved.room = some r ∧ saved.checkin = some ci ∧ saved.checkout = some co
      ∧ roomRates r = some saved.pricePerNight
      ∧ nights saved = ⌈((co - ci : Int) : ℚ) / 86400000⌉
      ∧ saved.totalPrice = saved.pricePerNight * nights saved)
    ∧ (saved.room = doc.room ∧ saved.checkin = doc.checkin ∧ saved.checkout = doc.checkout)
    ∧ w2.bookings = (if isNew then w.bookings ++ [saved] else updateOne saved w.bookings)
    ∧ (∀ (env2 : Env) (w3 : World) (doc2 : Booking) (isNew2 : Bool) (saved2 : Booking)
        (w4 : World), doc2.room = saved.room → doc2.checkin = saved.checkin →
        doc2.checkout = saved.checkout →
        Booking.save env2 w3 doc2 isNew2 = Except.ok (saved2, w4) →
        saved2.pricePerNight = saved.pricePerNight ∧ saved2.totalPrice = saved.totalPrice)
    ∧ (∀ (tz : Int) (w5 : World), Reachable tz w5 → ∀ b ∈ w5.bookings,
        b.pricePerNight = (b.room.bind roomRates).getD 0
        ∧ b.totalPrice = b.pricePerNight * nights b) := by
  obtain ⟨hv, _, _, hroom, hci, hco, _, _, hp, ht⟩ := save_fields env w doc isNew saved w2 h
  obtain ⟨_, hvr, hvi, hvo, _, _⟩ := validate_parts env doc hv
  obtain ⟨r, v, hr, _, hrate, _⟩ := validRoom_rate doc hvr
  have hn : nights saved = nights doc := nights_congr saved doc hci hco
  have hpv : saved.pricePerNight = v := by rw [hp, hr]; simp [hrate]
  refine ⟨?_, ⟨hroom, hci, hco⟩, (save_world env w doc isNew saved w2 h).2.2, ?_,
    fun tz w5 hr => (reachable_ledgerOk tz w5 hr).2.2.2⟩
  · cases hi : doc.checkin with
    | none => simp [validCheckin, hi] at hvi
    | some ci =>
      cases ho : doc.checkout with
      | none => simp [validCheckout, ho] at hvo
      | some co =>
        refine ⟨r, ci, co, by rw [hroom, hr], by rw [hci, hi], by rw [hco, ho], ?_, ?_, ?_⟩
        · rw [hpv, hrate]
        · exact nights_eq_ceil saved ci co (by rw [hci, hi]) (by rw [hco, ho])
        · rw [ht, hp, hn]
  · intro env2 w3 doc2 isNew2 saved2 w4 e1 e2 e3 h2
    obtain ⟨_, _, _, _, _, _, _, _, hp2, ht2⟩ := save_fields env2 w3 doc2 isNew2 saved2 w4 h2
    have hn2 : nights doc2 = nights doc := nights_congr doc2 doc (by rw [e2, hci]) (by rw [e3, hco])
    rw [hp2, ht2, hp, ht, e1, hroom, hn2]
    exact ⟨rfl, rfl⟩

/-- C1 at a concrete booking: a new bahaykubo booking for two nights that arrives with
price fields 7 and 9 is stored with 1500 and 3000. -/
theorem C1_save_recomputes_price_witness :
    Booking.save env0 world0 doc0 true = Except.ok (saved0, world1)
    ∧ doc0.pricePerNight = 7 ∧ doc0.totalPrice = 9
    ∧ saved0.pricePerNight = 1500 ∧ saved0.totalPrice = 3000
    ∧ world1.bookings = world0.bookings ++ [saved0] :=
  ⟨by rfl, by decide, by decide, by decide, by decide,
    (C1_save_recomputes_price env0 world0 doc0 true saved0 world1 (by rfl)).2.2.1⟩

/-! ## C2 -/

/-- C2, the claim as stated fails: a submission for room "native-cottage", from tomorrow
for two nights with 2 guests, is rejected by the room enumeration; no booking and no
notification is stored. -/
theorem C2_native_cottage_rejected :
    (postBookingSubmit env0 world0 session0
      ⟨some 1, some "native-cottage", some (env0.now + msPerDay),
        some (env0.now + 3 * msPerDay), some 2⟩)
      = ⟨Response.render 500 "error" (Locals.error "Booking submission failed."), session0,
          world0⟩
    ∧ world0.bookings = [] ∧ world0.notifications = [] := by
  refine ⟨?_, rfl, rfl⟩
  rfl

theorem setHoursZero_add_days (tz t k : Int) :
    setHoursZero tz (t + k * msPerDay) = setHoursZero tz t + k * msPerDay := by
  unfold setHoursZero
  rw [msPerDay_eq]
  omega

/-- C2 as amended. The room identifiers of the code are aircon, bahaykubo, cottage, open
and tent, priced 3500, 1500, 1200, 1000 and 500 per night.  A submission with a user id,
one of these rooms, a check-in day not before today, a check-out day after the check-in
day and 1 to 20 guests appends exactly one booking (status pending, pricePerNight the
rate of the room, totalPrice = pricePerNight * nights) and exactly one notification for
that user.  In particular room "bahaykubo" with check-in T + 1 day and check-out
T + 3 days (T today or later) and 2 guests is stored with nights 2, pricePerNight 1500,
totalPrice 3000 and status pending. -/
theorem C2_submit_rooms_and_rates (env : Env) (w : World) (s : Session) (uid : ObjectId)
    (r : String) (ci co g T : Int) (hr : r ∈ roomEnum)
    (hci : checkinValidator env ci = true)
    (hco : setHoursZero env.tzOffset co > setHoursZero env.tzOffset ci)
    (hg1 : 1 ≤ g) (hg2 : g ≤ 20) (hT : checkinValidator env T = true) :
    (roomEnum = ["aircon", "bahaykubo", "cottage", "open", "tent"]
      ∧ roomRates "aircon" = some 3500 ∧ roomRates "bahaykubo" = some 1500
      ∧ roomRates "cottage" = some 1200 ∧ roomRates "open" = some 1000
      ∧ roomRates "tent" = some 500)
    ∧ (∃ b n,
        (postBookingSubmit env w s ⟨some uid, some r, some ci, some co, some g⟩).world.bookings
          = w.bookings ++ [b]
        ∧ (postBookingSubmit env w s
            ⟨some uid, some r, some ci, some co, some g⟩).world.notifications
          = w.notifications ++ [n]
        ∧ b.userId = some uid ∧ b.room = some r ∧ b.status = some "pending"
        ∧ roomRates r = some b.pricePerNight ∧ b.totalPrice = b.pricePerNight * nights b
        ∧ n.userId = some uid)
    ∧ (∃ b n,
        (postBookingSubmit env w s
          ⟨some uid, some "bahaykubo", some (T + 1 * msPerDay), some (T + 3 * msPerDay),
            some 2⟩).world.bookings = w.bookings ++ [b]
        ∧ (postBookingSubmit env w s
          ⟨some uid, some "bahaykubo", some (T + 1 * msPerDay), some (T + 3 * msPerDay),
            some 2⟩).world.notifications = w.notifications ++ [n]
        ∧ nights b = 2 ∧ b.pricePerNight = 1500 ∧ b.totalPrice = 3000
        ∧ b.status = some "pending" ∧ n.userId = some uid) := by
  refine ⟨⟨rfl, by decide, by decide, by decide, by decide, by decide⟩, ?_, ?_⟩
  · obtain ⟨b, n, h1, h2, _, _, _, h6, h7, _, _, _, h11, h12, h13, h14, _, _⟩ :=
      submit_valid env w s uid r ci co g hr hci hco hg1 hg2
    exact ⟨b, n, h1, h2, h6, h7, h11, h12, h13, h14⟩
  · have hci2 : checkinValidator env (T + 1 * msPerDay) = true := by
      unfold checkinValidator at hT ⊢
      rw [setHoursZero_add_days]
      simp only [ge_iff_le, decide_eq_true_eq] at hT ⊢
      rw [msPerDay_eq]
      omega
    have hco2 : setHoursZero env.tzOffset (T + 3 * msPerDay)
        > setHoursZero env.tzOffset (T + 1 * msPerDay) := by
      rw [setHoursZero_add_days, setHoursZero_add_days, msPerDay_eq]
      omega
    obtain ⟨b, n, h1, h2, _, _, _, _, _, h8, h9, _, h11, h12, h13, h14, _, _⟩ :=
      submit_valid env w s uid "bahaykubo" (T + 1 * msPerDay) (T + 3 * msPerDay) 2
        (by decide) hci2 hco2 (by decide) (by decide)
    have hn : nights b = 2 := by
      unfold nights
      rw [h8, h9, msPerDay_eq]
      show -((-(T + 3 * 86400000 - (T + 1 * 86400000))) / 86400000) = 2
      omega
    have hp : b.pricePerNight = 1500 := by
      have h := h12
      rw [show roomRates "bahaykubo" = some 1500 by decide] at h
      exact (Option.some.inj h).symm
    refine ⟨b, n, h1, h2, hn, hp, ?_, h11, h14⟩
    rw [h13, hn, hp]
    rfl

/-- C2 as amended, at a concrete submission: a bahaykubo from tomorrow for two nights in a
store with one guest. -/
theorem C2_submit_rooms_and_rates_witness :
    "bahaykubo" ∈ roomEnum
    ∧ checkinValidator env0 (env0.now + 1 * msPerDay) = true
    ∧ roomRates "bahaykubo" = some 1500
    ∧ (postBookingSubmit env0 world0 session0
        ⟨some 1, some "bahaykubo", some (env0.now + 1 * msPerDay),
          some (env0.now + 3 * msPerDay), some 2⟩).world.bookings = [saved0] :=
  ⟨by decide, by decide,
    (C2_submit_rooms_and_rates env0 world0 session0 1 "bahaykubo"
      (env0.now + 1 * msPerDay) (env0.now + 3 * msPerDay) 2 env0.now (by decide) (by decide)
      (by decide) (by decide) (by decide) (by decide)).1.2.2.1,
    by rfl⟩

/-! ## C3 -/

theorem setHoursZero_mono (tz a b : Int) (h : a ≤ b) :
    setHoursZero tz a ≤ setHoursZero tz b := by
  unfold setHoursZero
  rw [msPerDay_eq]
  omega

/-- C3. A submission whose check-in calendar day is before the current calendar day, or
whose check-out is not strictly after its check-in, or whose guest count is outside
[1, 20], is refused (status 400 or 500) and leaves the store untouched: the ledger, the
outbox, the user store and the access log are all unchanged. -/
theorem C3_invalid_submission_persists_nothing (env : Env) (w : World) (s : Session)
    (userId : Option ObjectId) (room : Option String) (ci co g : Int)
    (h : setHoursZero env.tzOffset ci < setHoursZero env.tzOffset env.now
      ∨ co ≤ ci ∨ g < 1 ∨ 20 < g) :
    (postBookingSubmit env w s ⟨userId, room, some ci, some co, some g⟩).world = w
    ∧ (postBookingSubmit env w s ⟨userId, room, some ci, some co, some g⟩).world.bookings
        = w.bookings
    ∧ (postBookingSubmit env w s ⟨userId, room, some ci, some co, some g⟩).world.notifications
        = w.notifications
    ∧ ((postBookingSubmit env w s ⟨userId, room, some ci, some co, some g⟩).response
          = Response.send 400 "Missing booking details."
      ∨ (postBookingSubmit env w s ⟨userId, room, some ci, some co, some g⟩).response
          = Response.render 500 "error" (Locals.error "Booking submission failed.")) := by
  have hv : validate env (Booking.new w userId room (some ci) (some co) (some g)) = false := by
    have hparts : validCheckin env (Booking.new w userId room (some ci) (some co) (some g))
          = false
        ∨ validCheckout env (Booking.new w userId room (some ci) (some co) (some g)) = false
        ∨ validGuests (Booking.new w userId room (some ci) (some co) (some g)) = false := by
      rcases h with h | h | h | h
      · left
        simp only [validCheckin, Booking.new, checkinValidator, decide_eq_false_iff_not]
        omega
      · right
        left
        have hm := setHoursZero_mono env.tzOffset co ci h
        simp only [validCheckout, Booking.new, checkoutValidator, decide_eq_false_iff_not]
        omega
      · right
        right
        simp only [validGuests, Booking.new, Bool.and_eq_false_imp, decide_eq_true_eq,
          decide_eq_false_iff_not]
        omega
      · right
        right
        simp only [validGuests, Booking.new, Bool.and_eq_false_imp, decide_eq_true_eq,
          decide_eq_false_iff_not]
        omega
    unfold validate
    rcases hparts with h1 | h1 | h1 <;> simp [h1]
  obtain ⟨h1, _, h3⟩ :=
    submit_of_not_validate env w s ⟨userId, room, some ci, some co, some g⟩ hv
  refine ⟨h1, ?_, ?_, h3⟩
  · rw [h1]
  · rw [h1]

/-- C3 at a concrete submission: 25 guests. -/
theorem C3_invalid_submission_persists_nothing_witness :
    (20 : Int) < 25
    ∧ (postBookingSubmit env0 world1 session0
        ⟨some 1, some "tent", some (env0.now + msPerDay), some (env0.now + 2 * msPerDay),
          some 25⟩).world = world1 :=
  ⟨by decide,
    (C3_invalid_submission_persists_nothing env0 world1 session0 (some 1) (some "tent")
      (env0.now + msPerDay) (env0.now + 2 * msPerDay) 25
      (Or.inr (Or.inr (Or.inr (by decide))))).1⟩

/-! ## C4 -/

/-- C4, the claim as stated fails: in a reachable store, a pending booking whose check-in
day has passed can be neither accepted nor declined by an administrator.  The save
re-runs the check-in validator, the handler reports a generic error (not NotFound), the
booking stays pending and no notification is appended. -/
theorem C4_accept_fails_after_checkin_day :
    Reachable env0.tzOffset world2
    ∧ world2.bookings.find? (fun b => b.id == 2) = some saved0
    ∧ saved0.status = some "pending"
    ∧ sessionAdmin.admin.isSome = true
    ∧ adminAccept env5 world2 sessionAdmin 2
        = ⟨Response.redirect "/admin/dashboard",
            { sessionAdmin with message := some ⟨"error", "Error accepting booking."⟩ },
            world2.log Access.readBookings⟩
    ∧ adminDecline env5 world2 sessionAdmin 2
        = ⟨Response.redirect "/admin/dashboard",
            { sessionAdmin with message := some ⟨"error", "Error declining booking."⟩ },
            world2.log Access.readBookings⟩
    ∧ (world2.log Access.readBookings).bookings = [saved0]
    ∧ (world2.log Access.readBookings).notifications = world2.notifications := by
  refine ⟨world2_reachable, by rfl, rfl, rfl, by rfl, by rfl, rfl, rfl⟩

/-- C4 as amended. In a reachable store, for a stored pending booking and an admin-scoped
request: when the check-in calendar day of the booking is not before the current
calendar day, accept (respectively decline) succeeds, the stored booking gets status
accepted (respectively declined) with its owner, room, dates and guests unchanged, and
exactly one notification addressed to the owner is appended; when the check-in day has
passed, accept and decline fail with a generic error and change neither the ledger nor
the outbox. -/
theorem C4_accept_decline_pending (tz now : Int) (w : World) (s : Session) (id : ObjectId)
    (b : Booking) (hr : Reachable tz w) (ha : s.admin.isSome = true)
    (hf : w.bookings.find? (fun x => x.id == id) = some b)
    (hp : b.status = some "pending") :
    (validCheckin ⟨now, tz⟩ b = true →
      (∃ saved n,
        (adminAccept ⟨now, tz⟩ w s id).world.bookings = updateOne saved w.bookings
        ∧ (adminAccept ⟨now, tz⟩ w s id).world.bookings.find? (fun x => x.id == id)
            = some saved
        ∧ saved.status = some "accepted" ∧ saved.userId = b.userId ∧ saved.room = b.room
        ∧ saved.checkin = b.checkin ∧ saved.checkout = b.checkout ∧ saved.guests = b.guests
        ∧ (adminAccept ⟨now, tz⟩ w s id).world.notifications = w.notifications ++ [n]
        ∧ n.userId = b.userId
        ∧ (adminAccept ⟨now, tz⟩ w s id).session.message
            = some ⟨"success", "Booking accepted successfully!"⟩)
      ∧ (∃ saved n,
        (adminDecline ⟨now, tz⟩ w s id).world.bookings = updateOne saved w.bookings
        ∧ (adminDecline ⟨now, tz⟩ w s id).world.bookings.find? (fun x => x.id == id)
            = some saved
        ∧ saved.status = some "declined" ∧ saved.userId = b.userId ∧ saved.room = b.room
        ∧ saved.checkin = b.checkin ∧ saved.checkout = b.checkout ∧ saved.guests = b.guests
        ∧ (adminDecline ⟨now, tz⟩ w s id).world.notifications = w.notifications ++ [n]
        ∧ n.userId = b.userId
        ∧ (adminDecline ⟨now, tz⟩ w s id).session.message
            = some ⟨"success", "Booking declined successfully!"⟩))
    ∧ (validCheckin ⟨now, tz⟩ b = false →
      (adminAccept ⟨now, tz⟩ w s id).world.bookings = w.bookings
      ∧ (adminAccept ⟨now, tz⟩ w s id).world.notifications = w.notifications
      ∧ (adminAccept ⟨now, tz⟩ w s id).session.message
          = some ⟨"error", "Error accepting booking."⟩
      ∧ (adminDecline ⟨now, tz⟩ w s id).world.bookings = w.bookings
      ∧ (adminDecline ⟨now, tz⟩ w s id).world.notifications = w.notifications
      ∧ (adminDecline ⟨now, tz⟩ w s id).session.message
          = some ⟨"error", "Error declining booking."⟩
      ∧ w.bookings.find? (fun x => x.id == id) = some b ∧ b.status = some "pending") := by
  constructor
  · intro hc
    have hv := reachable_validate tz now w b hr (List.mem_of_find?_eq_some hf) hc
    constructor
    · obtain ⟨saved, n, w2, e, g1, g2, g3, _, g5, _, g7, g8, g9, g10, g11, g12, _⟩ :=
        accept_valid ⟨now, tz⟩ w s id b ha hf hv
      rw [e]
      exact ⟨saved, n, g1, g2, g5, g7, g8, g9, g10, g11, g3, g12, rfl⟩
    · obtain ⟨saved, n, w2, e, g1, g2, g3, _, g5, _, g7, g8, g9, g10, g11, g12, _⟩ :=
        decline_valid ⟨now, tz⟩ w s id b ha hf hv
      rw [e]
      exact ⟨saved, n, g1, g2, g5, g7, g8, g9, g10, g11, g3, g12, rfl⟩
  · intro hc
    rw [accept_invalid ⟨now, tz⟩ w s id b ha hf hc, decline_invalid ⟨now, tz⟩ w s id b ha hf hc]
    exact ⟨rfl, rfl, rfl, rfl, rfl, rfl, hf, hp⟩

/-- C4 as amended, at a concrete store: the pending booking `saved0`, accepted on the day
of its submission. -/
theorem C4_accept_decline_pending_witness :
    Reachable env0.tzOffset world2
    ∧ sessionAdmin.admin.isSome = true
    ∧ world2.bookings.find? (fun x => x.id == 2) = some saved0
    ∧ saved0.status = some "pending"
    ∧ validCheckin ⟨env0.now, env0.tzOffset⟩ saved0 = true
    ∧ (adminAccept ⟨env0.now, env0.tzOffset⟩ world2 sessionAdmin 2).session.message
        = some ⟨"success", "Booking accepted successfully!"⟩ := by
  have h := (C4_accept_decline_pending env0.tzOffset env0.now world2 sessionAdmin 2 saved0
    world2_reachable rfl (by rfl) rfl).1 (by decide)
  obtain ⟨_, _, _, _, _, _, _, _, _, _, _, _, hm⟩ := h.1
  exact ⟨world2_reachable, rfl, by rfl, rfl, by decide, hm⟩

/-! ## C5 -/

/-- C5. When no stored booking has the requested id, accept and decline on an
admin-scoped request answer with the flash message "Booking not found." (type error) and
a redirect to the dashboard; and, whatever the session, they leave the ledger, the
outbox, the user store and the id counter unchanged: nothing is created or modified. -/
theorem C5_accept_decline_not_found (env : Env) (w : World) (s : Session) (id : ObjectId)
    (hn : ∀ b ∈ w.bookings, b.id ≠ id) :
    (s.admin.isSome = true →
      (adminAccept env w s id).session.message = some ⟨"error", "Booking not found."⟩
      ∧ (adminAccept env w s id).response = Response.redirect "/admin/dashboard"
      ∧ (adminDecline env w s id).session.message = some ⟨"error", "Booking not found."⟩
      ∧ (adminDecline env w s id).response = Response.redirect "/admin/dashboard")
    ∧ (adminAccept env w s id).world.bookings = w.bookings
    ∧ (adminAccept env w s id).world.notifications = w.notifications
    ∧ (adminAccept env w s id).world.users = w.users
    ∧ (adminDecline env w s id).world.bookings = w.bookings
    ∧ (adminDecline env w s id).world.notifications = w.notifications
    ∧ (adminDecline env w s id).world.users = w.users := by
  have hf : w.bookings.find? (fun b => b.id == id) = none := by
    rw [List.find?_eq_none]
    intro x hx
    simpa using hn x hx
  constructor
  · intro ha
    rw [accept_not_found env w s id ha hf, decline_not_found env w s id ha hf]
    exact ⟨rfl, rfl, rfl, rfl⟩
  · cases ha : s.admin with
    | none =>
      unfold adminAccept adminDecline
      rw [requireAdmin_of_not_admin w s _ ha, requireAdmin_of_not_admin w s _ ha]
      exact ⟨rfl, rfl, rfl, rfl, rfl, rfl⟩
    | some a =>
      have ha2 : s.admin.isSome = true := by simp [ha]
      rw [accept_not_found env w s id ha2 hf, decline_not_found env w s id ha2 hf]
      exact ⟨rfl, rfl, rfl, rfl, rfl, rfl⟩

/-- C5 at a concrete store: id 7 is not in the ledger of `world2`. -/
theorem C5_accept_decline_not_found_witness :
    (∀ b ∈ world2.bookings, b.id ≠ 7)
    ∧ sessionAdmin.admin.isSome = true
    ∧ (adminAccept env0 world2 sessionAdmin 7).session.message
        = some ⟨"error", "Booking not found."⟩
    ∧ (adminAccept env0 world2 sessionAdmin 7).world.notifications = world2.notifications := by
  have hn : ∀ b ∈ world2.bookings, b.id ≠ 7 := by
    intro b hb
    simp only [world2, List.mem_singleton] at hb
    rw [hb]
    decide
  have h := C5_accept_decline_not_found env0 world2 sessionAdmin 7 hn
  exact ⟨hn, rfl, (h.1 rfl).1, h.2.2.1⟩

/-! ## C6 -/

/-- C6, the claim as stated fails: in a reachable store a declined booking is turned into
an accepted one by the accept operation. -/
theorem C6_declined_becomes_accepted :
    Reachable env0.tzOffset world3
    ∧ (world3.bookings.find? (fun b => b.id == 2)).map Booking.status
        = some (some "declined")
    ∧ ((handle env0 world3 sessionAdmin (Request.adminAccept 2)).world.bookings.find?
        (fun b => b.id == 2)).map Booking.status = some (some "accepted") := by
  refine ⟨?_, by rfl, by rfl⟩
  exact Reachable.step env0.now world2 sessionAdmin (Request.adminDecline 2) world2_reachable

/-- C6 as amended. In every reachable store and for every request, a booking whose status
is accepted or declined before the request has afterwards either been deleted or still
has a status among accepted and declined: it never goes back to pending.  Its status
changes only through accept or decline on an admin-scoped request, which overwrite the
status whatever it was; submit, cancel, delete and the read requests leave the status of
every surviving booking as it is. -/
theorem C6_no_return_to_pending (tz now : Int) (w : World) (s : Session) (req : Request)
    (id : ObjectId) (b : Booking) (hr : Reachable tz w)
    (hf : w.bookings.find? (fun x => x.id == id) = some b)
    (hst : b.status = some "accepted" ∨ b.status = some "declined") :
    (handle ⟨now, tz⟩ w s req).world.bookings.find? (fun x => x.id == id) = none
    ∨ (∃ b2, (handle ⟨now, tz⟩ w s req).world.bookings.find? (fun x => x.id == id) = some b2
        ∧ (b2.status = some "accepted" ∨ b2.status = some "declined")
        ∧ b2.status ≠ some "pending"
        ∧ (b2.status ≠ b.status →
            s.admin.isSome = true
            ∧ (req = Request.adminAccept id ∨ req = Request.adminDecline id))) := by
  have hne : ∀ st : Option String, (st = some "accepted" ∨ st = some "declined") →
      st ≠ some "pending" := by
    intro st h
    rcases h with h | h <;> rw [h] <;> decide
  rcases status_step tz now w s req id b (reachable_ledgerOk tz w hr) hf with h | h | h
  · exact Or.inl h.1
  · exact Or.inr ⟨b, h, hst, hne _ hst, fun hx => absurd rfl hx⟩
  · obtain ⟨b2, h1, h2, h3⟩ := h
    right
    rcases h3 with ⟨h4, h5⟩ | ⟨h4, h5⟩
    · exact ⟨b2, h1, Or.inl h5, hne _ (Or.inl h5), fun _ => ⟨h2, Or.inl h4⟩⟩
    · exact ⟨b2, h1, Or.inr h5, hne _ (Or.inr h5), fun _ => ⟨h2, Or.inr h4⟩⟩

/-- C6 as amended, at a concrete store: the declined booking of `world3` under an accept
request. -/
theorem C6_no_return_to_pending_witness :
    Reachable env0.tzOffset world3
    ∧ (∃ b, world3.bookings.find? (fun x => x.id == 2) = some b
        ∧ b.status = some "declined")
    ∧ ((handle ⟨env0.now, env0.tzOffset⟩ world3 sessionAdmin
          (Request.adminAccept 2)).world.bookings.find? (fun x => x.id == 2) = none
      ∨ (∃ b2, (handle ⟨env0.now, env0.tzOffset⟩ world3 sessionAdmin
            (Request.adminAccept 2)).world.bookings.find? (fun x => x.id == 2) = some b2
          ∧ b2.status ≠ some "pending")) := by
  have hr : Reachable env0.tzOffset world3 :=
    Reachable.step env0.now world2 sessionAdmin (Request.adminDecline 2) world2_reachable
  refine ⟨hr, ⟨{ saved0 with status := some "declined" }, by rfl, rfl⟩, ?_⟩
  rcases C6_no_return_to_pending env0.tzOffset env0.now world3 sessionAdmin
      (Request.adminAccept 2) 2 { saved0 with status := some "declined" } hr (by rfl)
      (Or.inr rfl) with h | ⟨b2, h1, _, h3, _⟩
  · exact Or.inl h
  · exact Or.inr ⟨b2, h1, h3⟩

/-! ## C7 -/

/-- C7, evaluation at the failing input: the administrator delete of the stored booking
`saved0` removes the record and appends no notification (the outbox is unchanged), while
the user cancel of the same booking removes it and appends one notification addressed to
its owner. -/
theorem C7_admin_delete_sends_no_notification :
    world2.bookings = [saved0] ∧ sessionAdmin.admin.isSome = true
    ∧ (handle env0 world2 sessionAdmin (Request.adminDelete 2)).world.bookings = []
    ∧ (handle env0 world2 sessionAdmin (Request.adminDelete 2)).world.notifications
        = world2.notifications
    ∧ (handle env0 world2 session0 (Request.postBookingCancel 2)).world.bookings = []
    ∧ (handle env0 world2 session0 (Request.postBookingCancel 2)).world.notifications
        = world2.notifications
          ++ [⟨4, some 1, "Your booking for bahaykubo has been cancelled.", "booking",
              env0.now, false⟩] := by
  refine ⟨rfl, rfl, by rfl, by rfl, by rfl, by rfl⟩

/-! ## C8 -/

/-- C8. A request without the admin scope to any route guarded by `requireAdmin`
(dashboard, analytics, history, users, settings, accept, decline, delete) is answered by
a redirect to /admin/login with the session and the whole store, access log included,
unchanged: nothing was read or written.  Hence, in every reachable store, if after a
request the booking with some id has status accepted or declined and this is not the
status it had before (or it did not exist before), the request carried the admin scope
and was the accept or the decline of that id. -/
theorem C8_admin_scope_required (tz now : Int) (w : World) (s : Session) (req : Request)
    (hr : Reachable tz w) :
    (s.admin = none → req.adminOnly = true →
      handle ⟨now, tz⟩ w s req = ⟨Response.redirect "/admin/login", s, w⟩)
    ∧ (∀ (id : ObjectId) (b2 : Booking),
        (handle ⟨now, tz⟩ w s req).world.bookings.find? (fun x => x.id == id) = some b2 →
        (b2.status = some "accepted" ∨ b2.status = some "declined") →
        (w.bookings.find? (fun x => x.id == id)).map Booking.status ≠ some b2.status →
        s.admin.isSome = true
        ∧ (req = Request.adminAccept id ∨ req = Request.adminDecline id)) := by
  constructor
  · intro hs hreq
    cases req with
    | adminDashboard =>
      show adminDashboard w s = _
      unfold adminDashboard
      exact requireAdmin_of_not_admin w s _ hs
    | adminAnalytics =>
      show adminAnalytics w s = _
      unfold adminAnalytics
      exact requireAdmin_of_not_admin w s _ hs
    | adminHistory =>
      show adminHistory w s = _
      unfold adminHistory
      exact requireAdmin_of_not_admin w s _ hs
    | adminUsers =>
      show adminUsers w s = _
      unfold adminUsers
      exact requireAdmin_of_not_admin w s _ hs
    | adminSettings =>
      show adminSettings w s = _
      unfold adminSettings
      exact requireAdmin_of_not_admin w s _ hs
    | adminAccept id =>
      show adminAccept ⟨now, tz⟩ w s id = _
      unfold adminAccept
      exact requireAdmin_of_not_admin w s _ hs
    | adminDecline id =>
      show adminDecline ⟨now, tz⟩ w s id = _
      unfold adminDecline
      exact requireAdmin_of_not_admin w s _ hs
    | adminDelete id =>
      show adminDelete w s id = _
      unfold adminDelete
      exact requireAdmin_of_not_admin w s _ hs
    | getProfile id => simp [Request.adminOnly] at hreq
    | postBookingSubmit body => simp [Request.adminOnly] at hreq
    | getUserUpdates id => simp [Request.adminOnly] at hreq
    | postBookingCancel id => simp [Request.adminOnly] at hreq
    | adminGetLogin => simp [Request.adminOnly] at hreq
    | adminPostLogin u p => simp [Request.adminOnly] at hreq
    | adminLogout => simp [Request.adminOnly] at hreq
    | adminRoot => simp [Request.adminOnly] at hreq
  · intro id b2 hafter hst hchg
    cases hf : w.bookings.find? (fun x => x.id == id) with
    | none =>
      rcases status_step_absent ⟨now, tz⟩ w s req id hf with h | ⟨b3, h1, h2⟩
      · rw [h] at hafter
        exact Option.noConfusion hafter
      · rw [h1] at hafter
        have hb : b3 = b2 := Option.some.inj hafter
        rw [hb] at h2
        rcases hst with h | h <;> rw [h2] at h <;> exact absurd h (by decide)
    | some b =>
      rw [hf] at hchg
      rcases status_step tz now w s req id b (reachable_ledgerOk tz w hr) hf with h | h | h
      · rw [h.1] at hafter
        exact Option.noConfusion hafter
      · rw [h] at hafter
        have hb : b = b2 := Option.some.inj hafter
        rw [hb] at hchg
        exact absurd rfl hchg
      · obtain ⟨b3, h1, h2, h3⟩ := h
        rcases h3 with ⟨h4, _⟩ | ⟨h4, _⟩
        · exact ⟨h2, Or.inl h4⟩
        · exact ⟨h2, Or.inr h4⟩

/-- C8 at a concrete store: an accept request without any scope on `world2`. -/
theorem C8_admin_scope_required_witness :
    Reachable env0.tzOffset world2 ∧ session0.admin = none
    ∧ (Request.adminAccept 2).adminOnly = true
    ∧ handle ⟨env0.now, env0.tzOffset⟩ world2 session0 (Request.adminAccept 2)
        = ⟨Response.redirect "/admin/login", session0, world2⟩ :=
  ⟨world2_reachable, rfl, rfl,
    (C8_admin_scope_required env0.tzOffset env0.now world2 session0 (Request.adminAccept 2)
      world2_reachable).1 rfl rfl⟩

/-! ## C9 -/

/-- C9, evaluation at the failing inputs: with a session that carries neither the user nor
the admin scope, cancel deletes the stored booking of user 1 and writes a notification,
submit stores a booking and a notification for the user id named in the body, and the
profile and polling handlers read the stores. -/
theorem C9_user_routes_unguarded :
    session0.user = none ∧ session0.admin = none
    ∧ world2.bookings = [saved0]
    ∧ (handle env0 world2 session0 (Request.postBookingCancel 2)).world.bookings = []
    ∧ (handle env0 world2 session0 (Request.postBookingCancel 2)).response
        = Response.jsonMessage 200 true "Booking cancelled successfully."
    ∧ (handle env0 world2 session0 (Request.postBookingCancel 2)).world.trace
        = Access.writeNotifications :: Access.writeBookings :: Access.readBookings
            :: world2.trace
    ∧ (handle env0 world0 session0 (Request.postBookingSubmit body0)).world.bookings
        = [saved0]
    ∧ (handle env0 world0 session0 (Request.postBookingSubmit body0)).world.notifications
        = [note0]
    ∧ (handle env0 world2 session0 (Request.getProfile 1)).world.trace
        = Access.readNotifications :: Access.readBookings :: Access.readUsers
            :: world2.trace
    ∧ (handle env0 world2 session0 (Request.getUserUpdates 1)).response
        = Response.jsonUpdates [saved0] [note0] := by
  refine ⟨rfl, rfl, rfl, by rfl, by rfl, by rfl, by rfl, by rfl, by rfl, by rfl⟩

/-! ## C10 -/

theorem firstOrZero_aggregate (w : World) (st : Option String) (f : Booking → Int) :
    firstOrZero (Booking.aggregate w st f).1
      = ((match st with
          | none => w.bookings
          | some v => w.bookings.filter (fun b => b.status == some v)).map f).sum := by
  unfold Booking.aggregate firstOrZero
  cases st with
  | none =>
    cases hb : w.bookings with
    | nil => simp
    | cons b bs => simp
  | some v =>
    cases hb : w.bookings.filter (fun b => b.status == some v) with
    | nil => simp [hb]
    | cons b bs => simp [hb]

theorem dashboard_locals (w : World) (s : Session) (ha : s.admin.isSome = true) :
    (adminDashboard w s).response = Response.render 200 "admin" (Locals.admin
      { admin := s.admin, bookings := sortBookings w.bookings,
        totalBookings := w.bookings.length,
        acceptedCount := (w.bookings.filter (fun b => b.status == some "accepted")).length,
        declinedCount := (w.bookings.filter (fun b => b.status == some "declined")).length,
        pendingCount := (w.bookings.filter (fun b => b.status == some "pending")).length,
        totalGuests := (w.bookings.map (fun b => b.guests.getD 0)).sum,
        totalRevenue := ((w.bookings.filter (fun b => b.status == some "accepted")).map
          (fun b => b.totalPrice)).sum,
        message := s.message }) := by
  unfold adminDashboard
  rw [requireAdmin_of_admin w s _ ha]
  simp only [firstOrZero_aggregate]
  simp [Booking.countDocuments, Booking.aggregate, Booking.findAll, World.log]

/-- C10. For every ledger, the dashboard served to an admin-scoped request reports
totalBookings = the number of bookings, acceptedCount, declinedCount and pendingCount =
the number of bookings with that status, totalGuests = the sum of guests over all
bookings, and totalRevenue = the sum of totalPrice over the accepted bookings only (0 for
an empty ledger); it leaves the stores unchanged.  For three bookings, one accepted with
totalPrice 3000, one declined and one pending, it reports totalRevenue 3000,
totalBookings 3 and pendingCount 1. -/
theorem C10_dashboard_counts (w : World) (s : Session) (ha : s.admin.isSome = true) :
    (∃ d, (adminDashboard w s).response = Response.render 200 "admin" (Locals.admin d)
      ∧ d.totalBookings = w.bookings.length
      ∧ d.acceptedCount = (w.bookings.filter (fun b => b.status == some "accepted")).length
      ∧ d.declinedCount = (w.bookings.filter (fun b => b.status == some "declined")).length
      ∧ d.pendingCount = (w.bookings.filter (fun b => b.status == some "pending")).length
      ∧ d.totalGuests = (w.bookings.map (fun b => b.guests.getD 0)).sum
      ∧ d.totalRevenue = ((w.bookings.filter (fun b => b.status == some "accepted")).map
          (fun b => b.totalPrice)).sum
      ∧ (w.bookings = [] → d.totalRevenue = 0 ∧ d.totalGuests = 0 ∧ d.totalBookings = 0)
      ∧ (∀ b1 b2 b3 : Booking, w.bookings = [b1, b2, b3] →
          b1.status = some "accepted" → b1.totalPrice = 3000 →
          b2.status = some "declined" → b3.status = some "pending" →
          d.totalRevenue = 3000 ∧ d.totalBookings = 3 ∧ d.pendingCount = 1
          ∧ d.acceptedCount = 1 ∧ d.declinedCount = 1))
    ∧ World.sameData w (adminDashboard w s).world := by
  refine ⟨⟨_, dashboard_locals w s ha, rfl, rfl, rfl, rfl, rfl, rfl, ?_, ?_⟩,
    adminDashboard_sameData w s⟩
  · intro he
    simp [he]
  · intro b1 b2 b3 he h1 h1p h2 h3
    simp [he, h1, h1p, h2, h3]

/-- C10 at a concrete ledger: one accepted booking with totalPrice 3000, one declined and
one pending. -/
theorem C10_dashboard_counts_witness :
    sessionAdmin.admin.isSome = true
    ∧ (∃ d, (adminDashboard
          { world2 with bookings :=
            [{ saved0 with status := some "accepted" },
              { saved0 with id := 5, status := some "declined" },
              { saved0 with id := 6 }] } sessionAdmin).response
          = Response.render 200 "admin" (Locals.admin d)
        ∧ d.totalRevenue = 3000 ∧ d.totalBookings = 3 ∧ d.pendingCount = 1) := by
  obtain ⟨⟨d, h1, _, _, _, _, _, _, _, h9⟩, _⟩ := C10_dashboard_counts
    { world2 with bookings :=
      [{ saved0 with status := some "accepted" },
        { saved0 with id := 5, status := some "declined" },
        { saved0 with id := 6 }] } sessionAdmin rfl
  obtain ⟨g1, g2, g3, _, _⟩ := h9 _ _ _ rfl rfl rfl rfl rfl
  exact ⟨rfl, d, h1, g1, g2, g3⟩

/-! ## C11 -/

/-- C11, the claim as stated fails: of two failed logins on the same store, the one with
an unknown identifier is answered "User not found. Please sign up first." and the one
with a registered email and a wrong password is answered "Incorrect password."; the two
responses differ. -/
theorem C11_login_messages_differ :
    (postLogin bcrypt0 lower0 world2 session0 "nobody@example.com" "wrong").response
      = AuthResponse.render "login"
          ⟨"Login / Signup | Philmar Resort", some "User not found. Please sign up first.",
            none⟩
    ∧ (postLogin bcrypt0 lower0 world2 session0 "ana@example.com" "wrong").response
      = AuthResponse.render "login"
          ⟨"Login / Signup | Philmar Resort", some "Incorrect password.", none⟩
    ∧ (postLogin bcrypt0 lower0 world2 session0 "nobody@example.com" "wrong").response
      ≠ (postLogin bcrypt0 lower0 world2 session0 "ana@example.com" "wrong").response := by
  refine ⟨by rfl, by rfl, by decide⟩

/-- C11 as amended. A failed login leaves the session and the stored data unchanged, and
its response tells the two failures apart: when no user matches the identifier (by email
or by username) the login page is rendered with "User not found. Please sign up first.",
and when a user matches but the password comparison fails it is rendered with
"Incorrect password."; the two responses are different, so they reveal whether the
account exists. -/
theorem C11_login_failures (bc : Bcrypt) (lc : String → String) (w : World) (s : Session)
    (id1 pw1 id2 pw2 : String) (u : User)
    (h1 : (User.findOneByEmailOrUsername lc w id1).1 = none)
    (h2 : (User.findOneByEmailOrUsername lc w id2).1 = some u)
    (h3 : bc.compare pw2 u.password = false) :
    (postLogin bc lc w s id1 pw1).response
      = AuthResponse.render "login"
          ⟨"Login / Signup | Philmar Resort", some "User not found. Please sign up first.",
            none⟩
    ∧ (postLogin bc lc w s id2 pw2).response
      = AuthResponse.render "login"
          ⟨"Login / Signup | Philmar Resort", some "Incorrect password.", none⟩
    ∧ (postLogin bc lc w s id1 pw1).response ≠ (postLogin bc lc w s id2 pw2).response
    ∧ (postLogin bc lc w s id1 pw1).session = s ∧ (postLogin bc lc w s id2 pw2).session = s
    ∧ World.sameData w (postLogin bc lc w s id1 pw1).world
    ∧ World.sameData w (postLogin bc lc w s id2 pw2).world := by
  have e1 : postLogin bc lc w s id1 pw1 = ⟨AuthResponse.render "login"
      ⟨"Login / Signup | Philmar Resort", some "User not found. Please sign up first.",
        none⟩, s, w.log Access.readUsers⟩ := by
    simp only [postLogin, h1]
    rfl
  have e2 : postLogin bc lc w s id2 pw2 = ⟨AuthResponse.render "login"
      ⟨"Login / Signup | Philmar Resort", some "Incorrect password.", none⟩, s,
      w.log Access.readUsers⟩ := by
    simp only [postLogin, h2, User.comparePassword, h3]
    rfl
  rw [e1, e2]
  refine ⟨rfl, rfl, by simp, rfl, rfl, log_sameData w _, log_sameData w _⟩

/-- C11 as amended, at a concrete store: an unknown identifier and a wrong password for
the registered guest. -/
theorem C11_login_failures_witness :
    (User.findOneByEmailOrUsername lower0 world2 "nobody@example.com").1 = none
    ∧ (User.findOneByEmailOrUsername lower0 world2 "ana@example.com").1 = some user0
    ∧ bcrypt0.compare "wrong" user0.password = false
    ∧ (postLogin bcrypt0 lower0 world2 session0 "nobody@example.com" "pw").response
      ≠ (postLogin bcrypt0 lower0 world2 session0 "ana@example.com" "wrong").response :=
  ⟨by rfl, by rfl, by rfl,
    (C11_login_failures bcrypt0 lower0 world2 session0 "nobody@example.com" "pw"
      "ana@example.com" "wrong" user0 (by rfl) (by rfl) (by rfl)).2.2.1⟩

/-! ## C12 -/

/-- C12. A signup with valid fields and an email that no stored user has (in lowercase)
succeeds and stores the user with the email in lowercase; any later signup whose email is
equal to it up to letter case (the same image under `toLowerCase`, the parameter `lc`),
on the resulting store or on any store that holds a user
with that lowercase email, is refused with "Email already registered. Please login
instead." and stores no user.  Consequently, in every store reachable from an empty user
store, no two stored users have the same email. -/
theorem C12_signup_email_unique (bc : Bcrypt) (lc : String → String) (tz : Int)
    (salt1 salt2 : String)
    (env1 env2 : Env) (w : World) (s1 s2 : Session)
    (fullname1 email1 password1 fullname2 email2 password2 : String)
    (hcase : lc email2 = lc email1)
    (hfresh : ∀ u ∈ w.users, u.email ≠ lc email1)
    (hf : trimStr fullname1 ≠ "") (he : lc email1 ≠ "") (hp : password1 ≠ "") :
    (∃ u, (postSignup bc lc salt1 env1 w s1 fullname1 email1 password1).world.users
          = w.users ++ [u]
        ∧ u.email = lc email1 ∧ u.password = bc.hash password1 salt1
        ∧ (postSignup bc lc salt1 env1 w s1 fullname1 email1 password1).response
          = AuthResponse.render "login"
              ⟨"Login / Signup | Philmar Resort", none,
                some "Account created successfully! You can now login."⟩)
    ∧ ((postSignup bc lc salt2 env2
          (postSignup bc lc salt1 env1 w s1 fullname1 email1 password1).world s2
          fullname2 email2 password2).response
        = AuthResponse.render "signup"
            ⟨"Sign Up | Philmar Resort",
              some "Email already registered. Please login instead.", none⟩
      ∧ (postSignup bc lc salt2 env2
          (postSignup bc lc salt1 env1 w s1 fullname1 email1 password1).world s2
          fullname2 email2 password2).world.users
        = (postSignup bc lc salt1 env1 w s1 fullname1 email1 password1).world.users)
    ∧ (∀ w3 : World, (∃ u ∈ w3.users, u.email = lc email1) →
        (postSignup bc lc salt2 env2 w3 s2 fullname2 email2 password2).response
          = AuthResponse.render "signup"
              ⟨"Sign Up | Philmar Resort",
                some "Email already registered. Please login instead.", none⟩
        ∧ (postSignup bc lc salt2 env2 w3 s2 fullname2 email2 password2).world.users = w3.users)
    ∧ (∀ w4 : World, ReachableApp bc lc tz w4 → (w4.users.map User.email).Nodup) := by
  have hlater : ∀ w3 : World, (∃ u ∈ w3.users, u.email = lc email1) →
      (postSignup bc lc salt2 env2 w3 s2 fullname2 email2 password2).response
        = AuthResponse.render "signup"
            ⟨"Sign Up | Philmar Resort",
              some "Email already registered. Please login instead.", none⟩
      ∧ (postSignup bc lc salt2 env2 w3 s2 fullname2 email2 password2).world.users
        = w3.users := by
    intro w3 hex
    obtain ⟨u, hu⟩ := findOneByEmail_some lc w3 email2 (by rw [hcase]; exact hex)
    rw [signup_existing bc lc salt2 env2 w3 s2 fullname2 email2 password2 u hu]
    exact ⟨rfl, rfl⟩
  have e1 := signup_fresh bc lc salt1 env1 w s1 fullname1 email1 password1 hfresh hf he hp
  refine ⟨?_, ?_, hlater, fun w4 h4 => (reachableApp_usersOk bc lc tz w4 h4).1⟩
  · rw [e1]
    exact ⟨_, rfl, rfl, rfl, rfl⟩
  · apply hlater
    rw [e1]
    exact ⟨_, List.mem_append_right _ (List.mem_singleton_self _), rfl⟩

/-- C12 at a concrete pair of signups: "Ana@Example.com", then "ANA@example.COM". -/
theorem C12_signup_email_unique_witness :
    lower0 "ANA@example.COM" = lower0 "Ana@Example.com"
    ∧ trimStr "Ana Cruz" ≠ "" ∧ lower0 "Ana@Example.com" ≠ ""
    ∧ (postSignup bcrypt0 lower0 "salt0" env0 (World.initial [] 0) session0 "Ana Cruz"
        "Ana@Example.com" "secret").world.users.map User.email = ["ana@example.com"]
    ∧ (postSignup bcrypt0 lower0 "salt1" env5
        (postSignup bcrypt0 lower0 "salt0" env0 (World.initial [] 0) session0 "Ana Cruz"
          "Ana@Example.com" "secret").world session0 "Ana C." "ANA@example.COM"
        "other").response
      = AuthResponse.render "signup"
          ⟨"Sign Up | Philmar Resort",
            some "Email already registered. Please login instead.", none⟩ :=
  ⟨by decide, by decide, by decide, by rfl,
    (C12_signup_email_unique bcrypt0 lower0 0 "salt0" "salt1" env0 env5 (World.initial [] 0)
      session0 session0 "Ana Cruz" "Ana@Example.com" "secret" "Ana C." "ANA@example.COM"
      "other" (by decide) (by simp [World.initial]) (by decide) (by decide)
      (by decide)).2.1.1⟩

/-! ## C13 -/

/-- C13, the claim as stated fails: in a reachable store, a full name that is provided but
blank after the schema setter `trim` is not set, and neither is the phone number provided
with it.  The required-validator of `fullname` rejects the save, and the stored user is
left as it was. -/
theorem C13_blank_fullname_not_set :
    ReachableApp bcrypt0 lower0 env0.tzOffset worldS
    ∧ userS ∈ worldS.users
    ∧ User.updateProfile bcrypt0 "salt1" worldS (User.loaded userS)
        ⟨some " \x0c ", some "0917 000 0000", none⟩ = Except.error "User validation failed"
    ∧ worldAfter worldS (User.updateProfile bcrypt0 "salt1" worldS (User.loaded userS)
        ⟨some " \x0c ", some "0917 000 0000", none⟩) = worldS := by
  refine ⟨worldS_reachable, ?_, by rfl, by rfl⟩
  rw [worldS_users]
  exact List.mem_singleton_self _

/-- C13 as amended. For every user stored in a reachable store and every partial-fields
argument (bcrypt hashes being non-empty): when the provided full name is non-empty but
blank after trimming, the save is rejected and nothing is persisted.  Otherwise
updateProfile succeeds and persists the user with exactly those of fullname, phone and
profileImage replaced that are provided and non-empty (fullname and phone with
surrounding white space trimmed), and with id, email, username, role, createdAt and the
fields not provided unchanged.  The stored password hash is unchanged, because the
password hook re-hashes on save only when the password path itself was modified. -/
theorem C13_updateProfile_frame (bc : Bcrypt) (lc : String → String) (tz : Int)
    (salt : String) (w : World) (u : User) (data : ProfileData)
    (hbc : ∀ p t : String, bc.hash p t ≠ "") (hr : ReachableApp bc lc tz w)
    (hu : u ∈ w.users) :
    ((falsyStr data.fullname = false ∧ trimStr (data.fullname.getD "") = "") →
      User.updateProfile bc salt w (User.loaded u) data
        = Except.error "User validation failed"
      ∧ worldAfter w (User.updateProfile bc salt w (User.loaded u) data) = w)
    ∧ (¬ (falsyStr data.fullname = false ∧ trimStr (data.fullname.getD "") = "") →
      ∃ u2 w2, User.updateProfile bc salt w (User.loaded u) data = Except.ok (u2, w2)
        ∧ u2.fullname
            = (if falsyStr data.fullname then u.fullname
                else trimStr (data.fullname.getD ""))
        ∧ u2.phone
            = (if falsyStr data.phone then u.phone else some (trimStr (data.phone.getD "")))
        ∧ u2.profileImage
            = (if falsyStr data.profileImage then u.profileImage
                else data.profileImage.getD "")
        ∧ u2.id = u.id ∧ u2.email = u.email ∧ u2.username = u.username
        ∧ u2.password = u.password ∧ u2.role = u.role ∧ u2.createdAt = u.createdAt
        ∧ w2.users = updateOneUser u2 w.users ∧ w2.bookings = w.bookings
        ∧ w2.notifications = w.notifications)
    ∧ (∀ doc : UserDoc, (User.preSave bc salt doc).password
        = (if doc.passwordModified then bc.hash doc.fields.password salt
            else doc.fields.password)) := by
  have hv : User.validate u = true := reachableApp_usersValid bc lc tz w hbc hr u hu
  obtain ⟨f1, f2, f3, f4, f5, f6⟩ := applyProfile_frame u data
  obtain ⟨g1, g2, g3⟩ := applyProfile_fields u data
  have hparts : u.fullname ≠ "" ∧ u.email ≠ "" ∧ u.password ≠ "" ∧ u.role ∈ roleEnum := by
    simp only [User.validate, Bool.and_eq_true, decide_eq_true_eq] at hv
    exact ⟨hv.1.1.1, hv.1.1.2, hv.1.2, hv.2⟩
  refine ⟨?_, ?_, ?_⟩
  · intro hb
    have hval : User.validate (applyProfile u data) = false := by
      simp [User.validate, g1, hb.1, hb.2]
    rw [updateProfile_loaded]
    simp [hval, worldAfter]
  · intro hb
    have hfn : (applyProfile u data).fullname ≠ "" := by
      rw [g1]
      by_cases hfal : falsyStr data.fullname = true
      · simp only [hfal, if_true]
        exact hparts.1
      · have hfal2 : falsyStr data.fullname = false := by simpa using hfal
        simp only [hfal2, Bool.false_eq_true, if_false]
        intro hbl
        exact hb ⟨hfal2, hbl⟩
    have hval : User.validate (applyProfile u data) = true := by
      simp only [User.validate, f2, f4, f5, Bool.and_eq_true, decide_eq_true_eq]
      exact ⟨⟨⟨hfn, hparts.2.1⟩, hparts.2.2.1⟩, hparts.2.2.2⟩
    refine ⟨applyProfile u data,
      World.mk (updateOneUser (applyProfile u data) w.users) w.bookings w.notifications
        w.nextId (Access.writeUsers :: w.trace),
      ?_, g1, g2, g3, f1, f2, f3, f4, f5, f6, rfl, rfl, rfl⟩
    rw [updateProfile_loaded]
    simp only [hval, if_true]
    rfl
  · intro doc
    unfold User.preSave
    cases doc.passwordModified <;> simp

/-- C13 as amended, at a concrete update: a new full name and phone number for the user
stored by the first signup. -/
theorem C13_updateProfile_frame_witness :
    ReachableApp bcrypt0 lower0 env0.tzOffset worldS ∧ userS ∈ worldS.users
    ∧ ¬ (falsyStr (some "Ana M. Cruz ") = false ∧ trimStr ("Ana M. Cruz ") = "")
    ∧ (∃ u2 w2, User.updateProfile bcrypt0 "salt1" worldS (User.loaded userS)
          ⟨some "Ana M. Cruz ", some "0917 000 0000", none⟩ = Except.ok (u2, w2)
        ∧ u2.fullname = "Ana M. Cruz" ∧ u2.phone = some "0917 000 0000"
        ∧ u2.password = userS.password ∧ u2.email = userS.email) := by
  have hnb : ¬ (falsyStr (some "Ana M. Cruz ") = false ∧ trimStr ("Ana M. Cruz ") = "") := by
    decide
  have hmem : userS ∈ worldS.users := by
    rw [worldS_users]
    exact List.mem_singleton_self _
  obtain ⟨u2, w2, h0, h1, h2, _, _, h5, _, h7, _⟩ :=
    (C13_updateProfile_frame bcrypt0 lower0 env0.tzOffset "salt1" worldS userS
      ⟨some "Ana M. Cruz ", some "0917 000 0000", none⟩ bcrypt0_hash_ne worldS_reachable
      hmem).2.1 hnb
  refine ⟨worldS_reachable, hmem, hnb, u2, w2, h0, ?_, ?_, h7, h5⟩
  · rw [h1]
    decide
  · rw [h2]
    decide

/-! ## C14 -/

/-- C14. The admin login answers with the redirect to the dashboard exactly when the
username and the password both equal the fixed credential pair.  In that case the admin
scope of the session becomes the username, and the user scope and the store are
unchanged; otherwise the login page is rendered with an error and the session (admin and
user scope included) and the store are unchanged. -/
theorem C14_admin_login (w : World) (s : Session) (username password : Option String) :
    ((adminPostLogin w s username password).response = Response.redirect "/admin/dashboard"
      ↔ (username = some "philmarresortadmin" ∧ password = some "resortphilmar2025"))
    ∧ ((username = some "philmarresortadmin" ∧ password = some "resortphilmar2025") →
        (adminPostLogin w s username password).session.admin = some "philmarresortadmin"
        ∧ (adminPostLogin w s username password).session.admin = username
        ∧ (adminPostLogin w s username password).session.user = s.user
        ∧ (adminPostLogin w s username password).world = w)
    ∧ (¬ (username = some "philmarresortadmin" ∧ password = some "resortphilmar2025") →
        (adminPostLogin w s username password).session = s
        ∧ (adminPostLogin w s username password).session.admin = s.admin
        ∧ (adminPostLogin w s username password).session.user = s.user
        ∧ (adminPostLogin w s username password).world = w
        ∧ (adminPostLogin w s username password).response
          = Response.render 200 "adminlog"
              (Locals.adminlog (some "Invalid username or password"))) := by
  by_cases h : username = some adminUsername ∧ password = some adminPassword
  · have e : adminPostLogin w s username password = ⟨Response.redirect "/admin/dashboard",
        { s with admin := username,
                 message := some ⟨"success", "Welcome back, Admin!"⟩ }, w⟩ := by
      unfold adminPostLogin
      simp [h]
    rw [e]
    refine ⟨⟨fun _ => h, fun _ => rfl⟩, fun _ => ⟨h.1, rfl, rfl, rfl⟩, fun hn => absurd h hn⟩
  · have e : adminPostLogin w s username password = ⟨Response.render 200 "adminlog"
        (Locals.adminlog (some "Invalid username or password")), s, w⟩ := by
      unfold adminPostLogin
      simp only [h, if_false]
    rw [e]
    refine ⟨⟨fun hr => ?_, fun hc => absurd hc h⟩, fun hc => absurd hc h,
      fun _ => ⟨rfl, rfl, rfl, rfl, rfl⟩⟩
    simp at hr

/-- C14 at a concrete login: the fixed pair in a session that already has a user scope. -/
theorem C14_admin_login_witness :
    (adminPostLogin world2 ⟨some ⟨1, "Ana Cruz", "ana@example.com", "ana"⟩, none, none⟩
        (some "philmarresortadmin") (some "resortphilmar2025")).session.admin
      = some "philmarresortadmin"
    ∧ (adminPostLogin world2 ⟨some ⟨1, "Ana Cruz", "ana@example.com", "ana"⟩, none, none⟩
        (some "philmarresortadmin") (some "resortphilmar2025")).session.user
      = some ⟨1, "Ana Cruz", "ana@example.com", "ana"⟩ := by
  have h := (C14_admin_login world2 ⟨some ⟨1, "Ana Cruz", "ana@example.com", "ana"⟩, none, none⟩
    (some "philmarresortadmin") (some "resortphilmar2025")).2.1 ⟨rfl, rfl⟩
  exact ⟨h.1, h.2.2.1⟩

/-! ## C15 -/

/-- C15. For every successful save of a booking: when its display name is blank and its
owning user exists in the user store with a non-empty full name, the persisted display
name is that full name; when its display name is not blank, the persisted display name is
the one it came with.  In particular a booking submitted through the submit handler,
which never supplies a name, is stored under the full name of the user named in the
request. -/
theorem C15_guest_name_autofill (env : Env) (w : World) (doc : Booking) (isNew : Bool)
    (saved : Booking) (w2 : World)
    (h : Booking.save env w doc isNew = Except.ok (saved, w2)) :
    (∀ (uid : ObjectId) (user : User), doc.name = "" → doc.userId = some uid →
        w.users.find? (fun u => u.id == uid) = some user → user.fullname ≠ "" →
        saved.name = user.fullname)
    ∧ (doc.name ≠ "" → saved.name = doc.name)
    ∧ (∀ (s : Session) (body : SubmitBody) (uid : ObjectId) (user : User),
        doc = Booking.new w body.userId body.room body.checkin body.checkout body.guests →
        isNew = true → missingDetails body = false → body.userId = some uid →
        w.users.find? (fun u => u.id == uid) = some user → user.fullname ≠ "" →
        (postBookingSubmit env w s body).world.bookings = w.bookings ++ [saved]
        ∧ saved.name = user.fullname) := by
  have hname := save_name env w doc isNew saved w2 h
  have hfill : ∀ (uid : ObjectId) (user : User), doc.name = "" → doc.userId = some uid →
      w.users.find? (fun u => u.id == uid) = some user → user.fullname ≠ "" →
      saved.name = user.fullname := by
    intro uid user hn hu hf hfn
    rw [hname]
    apply preSaveName_filled w _ uid user
    · rw [(preSaveStatus_name (preSavePrice doc)).1]
      exact hn
    · rw [(preSaveStatus_name (preSavePrice doc)).2]
      exact hu
    · exact hf
    · exact hfn
  refine ⟨hfill, ?_, ?_⟩
  · intro hn
    rw [hname, preSaveName_kept w _ (by rw [(preSaveStatus_name (preSavePrice doc)).1]; exact hn)]
    exact (preSaveStatus_name (preSavePrice doc)).1
  · intro s body uid user hd hnew hm hu hf hfn
    subst hd
    subst hnew
    refine ⟨?_, hfill uid user rfl hu hf hfn⟩
    rw [submit_of_save_ok env w s body saved w2 hm h]
    simp [Notification.create, (save_world env w _ true saved w2 h).2.2]

/-- C15 at a concrete booking: `doc0` has a blank name and user 1 is "Ana Cruz". -/
theorem C15_guest_name_autofill_witness :
    Booking.save env0 world0 doc0 true = Except.ok (saved0, world1)
    ∧ doc0.name = "" ∧ doc0.userId = some 1
    ∧ world0.users.find? (fun u => u.id == 1) = some user0
    ∧ saved0.name = "Ana Cruz" :=
  ⟨by rfl, rfl, rfl, by rfl,
    (C15_guest_name_autofill env0 world0 doc0 true saved0 world1 (by rfl)).1 1 user0 rfl rfl
      (by rfl) (by decide)⟩

/-! ## C16 -/

/-- C16. For every booking whose check-out calendar day is strictly after its check-in
calendar day and whose room is in the room enumeration, the derived nights value is at
least 1 and, with d the number of calendar days between check-in and check-out, it is d
or d + 1; so the total price computed by the price hook, and the total price persisted by
any successful save, is at least the price per night and strictly positive. -/
theorem C16_nights_at_least_one (env : Env) (doc : Booking)
    (hco : validCheckout env doc = true) (hroom : validRoom doc = true) :
    1 ≤ nights doc
    ∧ (∃ ci co, doc.checkin = some ci ∧ doc.checkout = some co
        ∧ 1 ≤ (setHoursZero env.tzOffset co - setHoursZero env.tzOffset ci) / msPerDay
        ∧ (nights doc = (setHoursZero env.tzOffset co - setHoursZero env.tzOffset ci)
              / msPerDay
          ∨ nights doc = (setHoursZero env.tzOffset co - setHoursZero env.tzOffset ci)
              / msPerDay + 1))
    ∧ (preSavePrice doc).pricePerNight ≤ (preSavePrice doc).totalPrice
    ∧ 0 < (preSavePrice doc).totalPrice
    ∧ (∀ (w : World) (isNew : Bool) (saved : Booking) (w2 : World),
        Booking.save env w doc isNew = Except.ok (saved, w2) →
        saved.pricePerNight ≤ saved.totalPrice ∧ 0 < saved.totalPrice
        ∧ 0 < saved.pricePerNight) := by
  obtain ⟨r, v, hr, _, hrate, hpos⟩ := validRoom_rate doc hroom
  unfold validCheckout at hco
  cases hi : doc.checkin with
  | none =>
    cases ho : doc.checkout with
    | none => simp [ho] at hco
    | some co => simp [ho, checkoutValidator, hi] at hco
  | some ci =>
    cases ho : doc.checkout with
    | none => simp [ho] at hco
    | some co =>
      simp only [ho, checkoutValidator, hi, decide_eq_true_eq] at hco
      obtain ⟨b1, b2, b3⟩ := nights_bounds env.tzOffset ci co hco
      have hn : nights doc = -((-(co - ci)) / msPerDay) := by
        unfold nights
        rw [hi, ho]
        rfl
      have hn1 : 1 ≤ nights doc := by rw [hn]; exact b2
      have hprice : (doc.room.bind roomRates).getD 0 = v := by
        rw [hr]
        simp [hrate]
      have htot : v ≤ v * nights doc ∧ 0 < v * nights doc := by
        constructor
        · nlinarith
        · exact Int.mul_pos hpos (by omega)
      refine ⟨hn1, ⟨ci, co, rfl, rfl, b1, ?_⟩, ?_, ?_, ?_⟩
      · rw [hn]
        exact b3
      · show (doc.room.bind roomRates).getD 0 ≤ (doc.room.bind roomRates).getD 0 * nights doc
        rw [hprice]
        exact htot.1
      · show 0 < (doc.room.bind roomRates).getD 0 * nights doc
        rw [hprice]
        exact htot.2
      · intro w isNew saved w2 hs
        obtain ⟨_, _, _, _, _, _, _, _, f8, f9⟩ := save_fields env w doc isNew saved w2 hs
        rw [f9, f8, hprice]
        exact ⟨htot.1, htot.2, hpos⟩

/-- C16 at a concrete booking: `doc0`, one calendar day apart twice over. -/
theorem C16_nights_at_least_one_witness :
    validCheckout env0 doc0 = true ∧ validRoom doc0 = true
    ∧ 1 ≤ nights doc0 ∧ 0 < (preSavePrice doc0).totalPrice := by
  have h := C16_nights_at_least_one env0 doc0 (by decide) (by decide)
  exact ⟨by decide, by decide, h.1, h.2.2.2.1⟩

end Philmar
